import Mathlib

/-!
VulkanInvaders: mesh upload (`Model`) and entity transform (`Projectile`).

A shallow embedding of `src/Model.cpp` and `src/Projectile.cpp`.

* Floating-point scalars are an arbitrary type `F`; only the operations the
  sources apply to them (`0`, `1`, `+`, `*`) are assumed, and no algebraic law.
* `std::vector<T>` is `List T`; an access `v[k]` outside `0 ≤ k < v.size()` is
  undefined behaviour and is modelled as `none`.
* `uint32_t` values are naturals reduced modulo `2 ^ 32` where the sources
  narrow to that type. The indices of `tinyobj::index_t` are 32-bit `int`s;
  a product such as `3 * idx.vertex_index` that leaves the `int` range is
  undefined behaviour and is modelled as `none`.
* `float` arithmetic is IEEE-754 binary32 with round-to-nearest-even
  (`Binary32`) wherever a statement depends on rounding, overflow or NaN.
-/

set_option autoImplicit false

namespace VulkanInvaders

/-! ## glm value types -/

/-- The type `glm::vec2`. -/
structure vec2 (F : Type) where
  x : F
  y : F
deriving DecidableEq

/-- The type `glm::vec3`. -/
structure vec3 (F : Type) where
  x : F
  y : F
  z : F
deriving DecidableEq

/-- The type `glm::vec4`. -/
structure vec4 (F : Type) where
  x : F
  y : F
  z : F
  w : F
deriving DecidableEq

/-- The type `glm::mat4`, column-major: `c0 .. c3` are `m[0] .. m[3]`. -/
structure mat4 (F : Type) where
  c0 : vec4 F
  c1 : vec4 F
  c2 : vec4 F
  c3 : vec4 F
deriving DecidableEq

instance instZeroVec2 {F : Type} [Zero F] : Zero (vec2 F) := ⟨⟨0, 0⟩⟩
instance instZeroVec3 {F : Type} [Zero F] : Zero (vec3 F) := ⟨⟨0, 0, 0⟩⟩

/-- Component-wise `glm::vec3 + glm::vec3`. -/
instance instAddVec3 {F : Type} [Add F] : Add (vec3 F) :=
  ⟨fun a b => ⟨a.x + b.x, a.y + b.y, a.z + b.z⟩⟩

/-- Component-wise `glm::vec3 * glm::vec3`. -/
instance instMulVec3 {F : Type} [Mul F] : Mul (vec3 F) :=
  ⟨fun a b => ⟨a.x * b.x, a.y * b.y, a.z * b.z⟩⟩

/-- The product `glm::vec3 * float`. -/
instance instHMulVec3 {F : Type} [Mul F] : HMul (vec3 F) F (vec3 F) :=
  ⟨fun a s => ⟨a.x * s, a.y * s, a.z * s⟩⟩

/-- Component-wise `glm::vec4 + glm::vec4`. -/
instance instAddVec4 {F : Type} [Add F] : Add (vec4 F) :=
  ⟨fun a b => ⟨a.x + b.x, a.y + b.y, a.z + b.z, a.w + b.w⟩⟩

/-- The product `glm::vec4 * float`. -/
instance instHMulVec4 {F : Type} [Mul F] : HMul (vec4 F) F (vec4 F) :=
  ⟨fun a s => ⟨a.x * s, a.y * s, a.z * s, a.w * s⟩⟩

/-! ## Parsed mesh (tinyobj) -/

namespace tinyobj

/-- The struct `tinyobj::index_t`: three `int` indices, `-1` when absent. -/
structure index_t where
  vertex_index : Int
  normal_index : Int
  texcoord_index : Int
deriving DecidableEq

/-- The struct `tinyobj::mesh_t`; `num_face_vertices` holds `unsigned char`
counts, read here as naturals. -/
structure mesh_t where
  indices : List index_t
  num_face_vertices : List Nat
  material_ids : List Int
deriving DecidableEq

/-- The struct `tinyobj::shape_t`. -/
structure shape_t where
  name : String
  mesh : mesh_t
deriving DecidableEq

/-- The struct `tinyobj::attrib_t`: flat attribute arrays. -/
structure attrib_t (F : Type) where
  vertices : List F
  normals : List F
  texcoords : List F
  colors : List F
deriving DecidableEq

end tinyobj

open tinyobj

/-! ## Vertex assembly (`Model::Model`, lines 26-52) -/

/-- The struct `Model::Vertex` as `Model.cpp` uses it (it assigns `position`,
`normal`, `uv` and `color`). -/
structure Vertex (F : Type) where
  position : vec3 F
  normal : vec3 F
  uv : vec2 F
  color : vec3 F
deriving DecidableEq

/-- Value initialisation `Vertex vertex{}`: every float is zero. -/
instance instZeroVertex {F : Type} [Zero F] : Zero (Vertex F) := ⟨⟨0, 0, 0, 0⟩⟩

/-- Element access `v[k]` with `k` an `int` expression converted to `size_t`:
defined only for `0 ≤ k < v.size()`. -/
def vectorAt {α : Type} (v : List α) (k : Int) : Option α :=
  if 0 ≤ k then v[k.toNat]? else none

/-- The call `glm::make_vec2(&v[k])`: reads `v[k]`, `v[k+1]`. -/
def make_vec2 {F : Type} (v : List F) (k : Int) : Option (vec2 F) := do
  let x ← vectorAt v k
  let y ← vectorAt v (k + 1)
  pure ⟨x, y⟩

/-- The call `glm::make_vec3(&v[k])`: reads `v[k]`, `v[k+1]`, `v[k+2]`. -/
def make_vec3 {F : Type} (v : List F) (k : Int) : Option (vec3 F) := do
  let x ← vectorAt v k
  let y ← vectorAt v (k + 1)
  let z ← vectorAt v (k + 2)
  pure ⟨x, y, z⟩

/-- The product `a * b` of two `int` operands (32 bits): signed overflow is
undefined behaviour, modelled as `none`. -/
def intMul (a b : Int) : Option Int :=
  if -2 ^ 31 ≤ a * b ∧ a * b < 2 ^ 31 then some (a * b) else none

/-- The expression `glm::make_vec3(&v[3 * i])` with `i` an `int`. -/
def readVec3 {F : Type} (v : List F) (i : Int) : Option (vec3 F) := do
  let k ← intMul 3 i
  make_vec3 v k

/-- The expression `glm::make_vec2(&v[2 * i])` with `i` an `int`. -/
def readVec2 {F : Type} (v : List F) (i : Int) : Option (vec2 F) := do
  let k ← intMul 2 i
  make_vec2 v k

/-- Lines 34-43: the vertex built for one `index_t`. -/
def assembleVertex {F : Type} [Zero F] (attrib : attrib_t F) (idx : index_t) :
    Option (Vertex F) := do
  let vertex : Vertex F := 0
  let position ← readVec3 attrib.vertices idx.vertex_index
  let normal ← readVec3 attrib.normals idx.normal_index
  let uv ←
    if attrib.texcoords.length > 0 then readVec2 attrib.texcoords idx.texcoord_index
    else pure vertex.uv
  let color ←
    if attrib.colors.length > 0 then readVec3 attrib.colors idx.vertex_index
    else pure vertex.color
  pure { position := position, normal := normal, uv := uv, color := color }

/-- Lines 33-46, `for (size_t v = 0; v < fv; v++)`: the first argument counts
the iterations left (`fv - v`), the second is `v`. The pushed index is narrowed
to `uint32_t`. -/
def vertexLoop {F : Type} [Zero F] (attrib : attrib_t F) (mesh : mesh_t)
    (index_start index_offset : Nat) :
    Nat → Nat → List (Vertex F) × List Nat → Option (List (Vertex F) × List Nat)
  | 0, _, out => some out
  | n + 1, v, out => do
    let idx ← mesh.indices[index_offset + v]?
    let vertex ← assembleVertex attrib idx
    vertexLoop attrib mesh index_start index_offset n (v + 1)
      (out.1 ++ [vertex], out.2 ++ [(index_offset + index_start + v) % 2 ^ 32])

/-- Lines 31-49, the loop over the faces of one shape: the list argument holds
`num_face_vertices[f], num_face_vertices[f+1], ...`, followed by `f` and
`index_offset`. -/
def faceLoop {F : Type} [Zero F] (attrib : attrib_t F) (mesh : mesh_t) (index_start : Nat) :
    List Nat → Nat → Nat → List (Vertex F) × List Nat → Option (List (Vertex F) × List Nat)
  | [], _, _, out => some out
  | fv :: rest, f, index_offset, out => do
    let out ← vertexLoop attrib mesh index_start index_offset fv 0 out
    let _ ← mesh.material_ids[f]?
    faceLoop attrib mesh index_start rest (f + 1) (index_offset + fv) out

/-- Lines 28-50, the loop over the shapes; `index_start = indices.size()`. -/
def shapeLoop {F : Type} [Zero F] (attrib : attrib_t F) :
    List shape_t → List (Vertex F) × List Nat → Option (List (Vertex F) × List Nat)
  | [], out => some out
  | s :: rest, out => do
    let index_start := out.2.length
    let out ← faceLoop attrib s.mesh index_start s.mesh.num_face_vertices 0 0 out
    shapeLoop attrib rest out

/-- Lines 26-50: `vertices` and `indices` after the loops, `none` when some
vector access was out of bounds. -/
def assemble {F : Type} [Zero F] (attrib : attrib_t F) (shapes : List shape_t) :
    Option (List (Vertex F) × List Nat) :=
  shapeLoop attrib shapes ([], [])

/-- Line 52: `static_cast<uint32_t>(indices.size())`. -/
def indexCountOf (indices : List Nat) : Nat := indices.length % 2 ^ 32

/-! ### Well-formed parsed meshes -/

/-- Number of face-vertices of a shape: the sum of its `num_face_vertices`. -/
def faceVertexCount (s : shape_t) : Nat := s.mesh.num_face_vertices.sum

/-- Number of face-vertices of the whole mesh. -/
def totalFaceVertices (shapes : List shape_t) : Nat := (shapes.map faceVertexCount).sum

/-- The face-vertex occurrences of a shape in face order: the first
`faceVertexCount s` entries of its index list. -/
def shapeOccurrences (s : shape_t) : List index_t := s.mesh.indices.take (faceVertexCount s)

/-- The face-vertex occurrences of the mesh, shape after shape. -/
def occurrences (shapes : List shape_t) : List index_t :=
  (shapes.map shapeOccurrences).flatten

/-- One face-vertex addresses existing attribute data (indices compared as
integers, without regard to the width of `int`). -/
def IndexInRange {F : Type} (attrib : attrib_t F) (idx : index_t) : Prop :=
  (0 ≤ idx.vertex_index ∧ 3 * idx.vertex_index + 2 < attrib.vertices.length) ∧
  (0 ≤ idx.normal_index ∧ 3 * idx.normal_index + 2 < attrib.normals.length) ∧
  (attrib.texcoords.length > 0 →
    0 ≤ idx.texcoord_index ∧ 2 * idx.texcoord_index + 1 < attrib.texcoords.length) ∧
  (attrib.colors.length > 0 → 3 * idx.vertex_index + 2 < attrib.colors.length)

instance instDecidableIndexInRange {F : Type} (attrib : attrib_t F) (idx : index_t) :
    Decidable (IndexInRange attrib idx) := by
  unfold IndexInRange; infer_instance

/-- One shape is consistent: enough index entries for its faces, one material
id per face, every face-vertex in range. -/
def ShapeInRange {F : Type} (attrib : attrib_t F) (s : shape_t) : Prop :=
  faceVertexCount s ≤ s.mesh.indices.length ∧
  s.mesh.num_face_vertices.length ≤ s.mesh.material_ids.length ∧
  ∀ idx ∈ shapeOccurrences s, IndexInRange attrib idx

instance instDecidableShapeInRange {F : Type} (attrib : attrib_t F) (s : shape_t) :
    Decidable (ShapeInRange attrib s) := by
  unfold ShapeInRange; infer_instance

/-- Every shape of the mesh is consistent. -/
def MeshInRange {F : Type} (attrib : attrib_t F) (shapes : List shape_t) : Prop :=
  ∀ s ∈ shapes, ShapeInRange attrib s

instance instDecidableMeshInRange {F : Type} (attrib : attrib_t F) (shapes : List shape_t) :
    Decidable (MeshInRange attrib shapes) := by
  unfold MeshInRange; infer_instance

/-- One face-vertex addresses existing attribute data and the index products
the loop computes for it stay within `int`. -/
def IndexReadable {F : Type} (attrib : attrib_t F) (idx : index_t) : Prop :=
  IndexInRange attrib idx ∧
  3 * idx.vertex_index < 2 ^ 31 ∧
  3 * idx.normal_index < 2 ^ 31 ∧
  (attrib.texcoords.length > 0 → 2 * idx.texcoord_index < 2 ^ 31)

instance instDecidableIndexReadable {F : Type} (attrib : attrib_t F) (idx : index_t) :
    Decidable (IndexReadable attrib idx) := by
  unfold IndexReadable; infer_instance

/-- One shape is consistent and all its face-vertices are readable. -/
def ShapeReadable {F : Type} (attrib : attrib_t F) (s : shape_t) : Prop :=
  faceVertexCount s ≤ s.mesh.indices.length ∧
  s.mesh.num_face_vertices.length ≤ s.mesh.material_ids.length ∧
  ∀ idx ∈ shapeOccurrences s, IndexReadable attrib idx

instance instDecidableShapeReadable {F : Type} (attrib : attrib_t F) (s : shape_t) :
    Decidable (ShapeReadable attrib s) := by
  unfold ShapeReadable; infer_instance

/-- Every access and every index product of the assembly loop is defined. -/
def MeshReadable {F : Type} (attrib : attrib_t F) (shapes : List shape_t) : Prop :=
  ∀ s ∈ shapes, ShapeReadable attrib s

instance instDecidableMeshReadable {F : Type} (attrib : attrib_t F) (shapes : List shape_t) :
    Decidable (MeshReadable attrib shapes) := by
  unfold MeshReadable; infer_instance

/-- The vertex of a readable face-vertex, zero otherwise (total form of
`assembleVertex`, used to write down the loop results). -/
def vertexOf {F : Type} [Zero F] (attrib : attrib_t F) (idx : index_t) : Vertex F :=
  (assembleVertex attrib idx).getD 0

/-! ## Device model

`VulkanDevice.h` and `VulkanUtils.h` are not among the sources; the device is
modelled as a state on which every call the sources make is logged. -/

/-- Vulkan object handles. -/
abbrev Handle := Nat

/-- One byte of buffer storage. -/
abbrev Byte := Nat

def VK_NULL_HANDLE : Handle := 0

def VK_SUCCESS : Int := 0
def VK_TIMEOUT : Int := 2

def VK_BUFFER_USAGE_TRANSFER_SRC_BIT : Nat := 0x1
def VK_BUFFER_USAGE_TRANSFER_DST_BIT : Nat := 0x2
def VK_BUFFER_USAGE_UNIFORM_BUFFER_BIT : Nat := 0x10
def VK_BUFFER_USAGE_INDEX_BUFFER_BIT : Nat := 0x40
def VK_BUFFER_USAGE_VERTEX_BUFFER_BIT : Nat := 0x80
def VK_MEMORY_PROPERTY_DEVICE_LOCAL_BIT : Nat := 0x1
def VK_MEMORY_PROPERTY_HOST_VISIBLE_BIT : Nat := 0x2
def VK_MEMORY_PROPERTY_HOST_COHERENT_BIT : Nat := 0x4
def VK_COMMAND_BUFFER_LEVEL_PRIMARY : Nat := 0
def VK_INDEX_TYPE_UINT32 : Nat := 1
def VK_DESCRIPTOR_TYPE_UNIFORM_BUFFER : Nat := 6
def VK_SHADER_STAGE_VERTEX_BIT : Nat := 0x1
def VK_TRUE : Nat := 1

/-- The struct `VkBufferCopy`. -/
structure VkBufferCopy where
  srcOffset : Nat
  dstOffset : Nat
  size : Nat
deriving DecidableEq

/-- The struct `VkDescriptorSetLayoutBinding` (without `pImmutableSamplers`). -/
structure VkDescriptorSetLayoutBinding where
  binding : Nat
  descriptorType : Nat
  descriptorCount : Nat
  stageFlags : Nat
deriving DecidableEq

/-- The struct `VulkanDeviceBuffer`: the members the sources use. `mapped` is
the persistent host mapping: the buffer whose storage it addresses, `none` for
a null pointer. -/
structure VulkanDeviceBuffer where
  device : Handle
  buffer : Handle
  memory : Handle
  mapped : Option Handle
deriving DecidableEq

/-- The struct `VkWriteDescriptorSet`: the members `allocateResources` sets.
`pBufferInfo` is `&VkDescriptorBufferInfo(ubo)`, kept as the buffer it is
converted from. -/
structure VkWriteDescriptorSet where
  dstSet : Handle
  dstBinding : Nat
  descriptorCount : Nat
  descriptorType : Nat
  pBufferInfo : VulkanDeviceBuffer
deriving DecidableEq

/-- The calls the sources make on the device, with their arguments and, for
creating calls, the handles returned. -/
inductive Call where
  | createBuffer (usage memoryProperties size : Nat) (data : Option (List Byte))
      (buffer memory : Handle)
  | vkAllocateCommandBuffers (device commandPool : Handle) (level count : Nat)
      (commandBuffer : Handle)
  | vkBeginCommandBuffer (commandBuffer : Handle)
  | vkCmdCopyBuffer (commandBuffer src dst : Handle) (regions : List VkBufferCopy)
  | vkEndCommandBuffer (commandBuffer : Handle)
  | vkCreateFence (device fence : Handle)
  | vkQueueSubmit (queue : Handle) (commandBuffers : List Handle) (fence : Handle)
  | vkWaitForFences (device : Handle) (fences : List Handle) (waitAll : Nat) (timeout : Nat)
  | vkDestroyFence (device fence : Handle)
  | vkDestroyBuffer (device buffer : Handle)
  | vkFreeMemory (device memory : Handle)
  | vkCmdBindVertexBuffers (commandBuffer : Handle) (firstBinding bindingCount : Nat)
      (buffers : List Handle) (offsets : List Nat)
  | vkCmdBindIndexBuffer (commandBuffer buffer : Handle) (offset indexType : Nat)
  | vkCmdDrawIndexed (commandBuffer : Handle) (indexCount instanceCount firstIndex : Nat)
      (vertexOffset : Int) (firstInstance : Nat)
  | vkCreateDescriptorSetLayout (device : Handle) (bindings : List VkDescriptorSetLayoutBinding)
      (layout : Handle)
  | vkAllocateDescriptorSets (device descriptorPool : Handle) (layouts : List Handle)
      (descriptorSet : Handle)
  | vkUpdateDescriptorSets (device : Handle) (writes : List VkWriteDescriptorSet)
  | vkDestroyDescriptorSetLayout (device layout : Handle)
  | bufferDestroy (buffer : VulkanDeviceBuffer)
deriving DecidableEq

/-- A live buffer with its backing storage. -/
structure BufferObject where
  usage : Nat
  memoryProperties : Nat
  size : Nat
  memory : Handle
  data : List Byte
deriving DecidableEq

/-- State of the graphics device behind `VulkanDevice *device`.
`completes` tells whether work submitted to a queue finishes (and signals its
fence) before a wait on it times out. -/
structure VulkanDevice where
  logicalDevice : Handle
  nextHandle : Handle
  buffers : Handle → Option BufferObject
  recorded : Handle → List Call
  signaled : Handle → Bool
  completes : Bool
  calls : List Call

/-- Ways an operation can end other than by returning. -/
inductive Fault where
  | undefinedBehaviour
  | vkError (result : Int)
deriving DecidableEq

/-- The macro `VK_CHECK_RESULT`: any result other than `VK_SUCCESS` is fatal. -/
def VK_CHECK_RESULT (result : Int) : Except Fault Unit :=
  if result = VK_SUCCESS then .ok () else .error (.vkError result)

namespace VulkanDevice

/-- Append a call to the log. -/
def log (d : VulkanDevice) (c : Call) : VulkanDevice := { d with calls := d.calls ++ [c] }

/-- Modelled from the spec: `VulkanDevice::createBuffer` (in `VulkanDevice.h`,
not among the sources) creates a buffer of `size` bytes with its own backing
memory and, when a data pointer is given, copies `size` bytes from it; a
host-visible buffer stays persistently mapped. Storage created without data is
zero-filled here. -/
def createBuffer (d : VulkanDevice) (usage memoryProperties size : Nat)
    (data : Option (List Byte)) : VulkanDeviceBuffer × VulkanDevice :=
  let buffer := d.nextHandle
  let memory := d.nextHandle + 1
  let contents :=
    match data with
    | some bytes => (bytes ++ List.replicate size 0).take size
    | none => List.replicate size 0
  let mapped :=
    if memoryProperties &&& VK_MEMORY_PROPERTY_HOST_VISIBLE_BIT ≠ 0 then some buffer else none
  ({ device := d.logicalDevice, buffer := buffer, memory := memory, mapped := mapped },
    { d with
      nextHandle := d.nextHandle + 2
      buffers := Function.update d.buffers buffer
        (some { usage := usage, memoryProperties := memoryProperties, size := size,
                memory := memory, data := contents })
      calls := d.calls ++ [.createBuffer usage memoryProperties size data buffer memory] })

/-- Modelled from the spec: `VulkanDeviceBuffer::destroy` (in `VulkanDevice.h`,
not among the sources) releases the buffer and its memory. -/
def bufferDestroy (d : VulkanDevice) (b : VulkanDeviceBuffer) : VulkanDevice :=
  { d with
    buffers := Function.update d.buffers b.buffer none
    calls := d.calls ++ [.bufferDestroy b] }

def vkAllocateCommandBuffers (d : VulkanDevice) (device commandPool : Handle)
    (level count : Nat) : Int × Handle × VulkanDevice :=
  (VK_SUCCESS, d.nextHandle,
    { d with
      nextHandle := d.nextHandle + 1
      recorded := Function.update d.recorded d.nextHandle []
      calls := d.calls ++ [.vkAllocateCommandBuffers device commandPool level count d.nextHandle] })

def vkBeginCommandBuffer (d : VulkanDevice) (commandBuffer : Handle) : Int × VulkanDevice :=
  (VK_SUCCESS,
    { d with
      recorded := Function.update d.recorded commandBuffer []
      calls := d.calls ++ [.vkBeginCommandBuffer commandBuffer] })

/-- Record a command into a command buffer (any `vkCmd*` call). -/
def record (d : VulkanDevice) (commandBuffer : Handle) (c : Call) : VulkanDevice :=
  { d with
    recorded := Function.update d.recorded commandBuffer (d.recorded commandBuffer ++ [c])
    calls := d.calls ++ [c] }

def vkEndCommandBuffer (d : VulkanDevice) (commandBuffer : Handle) : Int × VulkanDevice :=
  (VK_SUCCESS, d.log (.vkEndCommandBuffer commandBuffer))

def vkCreateFence (d : VulkanDevice) (device : Handle) : Int × Handle × VulkanDevice :=
  (VK_SUCCESS, d.nextHandle,
    { d with
      nextHandle := d.nextHandle + 1
      signaled := Function.update d.signaled d.nextHandle false
      calls := d.calls ++ [.vkCreateFence device d.nextHandle] })

/-- One copy region executed on the buffer storage; `none` when a buffer is not
live or the region leaves a buffer. -/
def copyRegion (buffers : Handle → Option BufferObject) (src dst : Handle) (r : VkBufferCopy) :
    Option (Handle → Option BufferObject) :=
  match buffers src, buffers dst with
  | some s, some t =>
    if r.srcOffset + r.size ≤ s.data.length ∧ r.dstOffset + r.size ≤ t.data.length then
      some (Function.update buffers dst
        (some { t with
          data := t.data.take r.dstOffset ++ (s.data.drop r.srcOffset).take r.size ++
            t.data.drop (r.dstOffset + r.size) }))
    else none
  | _, _ => none

/-- Effect of one recorded command on the buffer storage; only copies write. -/
def execute (buffers : Handle → Option BufferObject) :
    Call → Option (Handle → Option BufferObject)
  | .vkCmdCopyBuffer _ src dst regions =>
    regions.foldlM (fun b r => copyRegion b src dst r) buffers
  | _ => some buffers

/-- The call `vkQueueSubmit`: when the device completes the work, the recorded
commands run in order and the fence becomes signaled; otherwise nothing
happens to the storage and the fence stays unsignaled. -/
def vkQueueSubmit (d : VulkanDevice) (queue : Handle) (commandBuffers : List Handle)
    (fence : Handle) : Option (Int × VulkanDevice) :=
  let d := d.log (.vkQueueSubmit queue commandBuffers fence)
  if d.completes then do
    let buffers ← (commandBuffers.flatMap d.recorded).foldlM execute d.buffers
    pure (VK_SUCCESS, { d with buffers := buffers, signaled := Function.update d.signaled fence true })
  else pure (VK_SUCCESS, d)

def vkWaitForFences (d : VulkanDevice) (device : Handle) (fences : List Handle)
    (waitAll timeout : Nat) : Int × VulkanDevice :=
  (if fences.all d.signaled then VK_SUCCESS else VK_TIMEOUT,
    d.log (.vkWaitForFences device fences waitAll timeout))

def vkDestroyFence (d : VulkanDevice) (device fence : Handle) : VulkanDevice :=
  d.log (.vkDestroyFence device fence)

def vkDestroyBuffer (d : VulkanDevice) (device buffer : Handle) : VulkanDevice :=
  { d with
    buffers := Function.update d.buffers buffer none
    calls := d.calls ++ [.vkDestroyBuffer device buffer] }

def vkFreeMemory (d : VulkanDevice) (device memory : Handle) : VulkanDevice :=
  d.log (.vkFreeMemory device memory)

def vkCreateDescriptorSetLayout (d : VulkanDevice) (device : Handle)
    (bindings : List VkDescriptorSetLayoutBinding) : Int × Handle × VulkanDevice :=
  (VK_SUCCESS, d.nextHandle,
    { d with
      nextHandle := d.nextHandle + 1
      calls := d.calls ++ [.vkCreateDescriptorSetLayout device bindings d.nextHandle] })

def vkAllocateDescriptorSets (d : VulkanDevice) (device descriptorPool : Handle)
    (layouts : List Handle) : Int × Handle × VulkanDevice :=
  (VK_SUCCESS, d.nextHandle,
    { d with
      nextHandle := d.nextHandle + 1
      calls := d.calls ++ [.vkAllocateDescriptorSets device descriptorPool layouts d.nextHandle] })

def vkUpdateDescriptorSets (d : VulkanDevice) (device : Handle)
    (writes : List VkWriteDescriptorSet) : VulkanDevice :=
  d.log (.vkUpdateDescriptorSets device writes)

def vkDestroyDescriptorSetLayout (d : VulkanDevice) (device layout : Handle) : VulkanDevice :=
  d.log (.vkDestroyDescriptorSetLayout device layout)

end VulkanDevice

/-! ## Host memory layout -/

/-- The struct `Projectile::Matrices`. -/
structure Matrices (F : Type) where
  model : mat4 F
deriving DecidableEq

/-- Object representations of the host data handed to the device: the bytes of
a `Vertex`, of a `uint32_t` and of a `Matrices`, each of its `sizeof` length. -/
structure HostLayout (F : Type) where
  sizeofVertex : Nat
  vertexBytes : Vertex F → List Byte
  vertexBytes_length : ∀ v, (vertexBytes v).length = sizeofVertex
  uint32Bytes : Nat → List Byte
  uint32Bytes_length : ∀ i, (uint32Bytes i).length = 4
  sizeofMatrices : Nat
  matricesBytes : Matrices F → List Byte
  matricesBytes_length : ∀ m, (matricesBytes m).length = sizeofMatrices

/-- The bytes behind `vertices.data()`. -/
def HostLayout.vertexData {F : Type} (L : HostLayout F) (vertices : List (Vertex F)) :
    List Byte :=
  (vertices.map L.vertexBytes).flatten

/-- The bytes behind `indices.data()`. -/
def HostLayout.indexData {F : Type} (L : HostLayout F) (indices : List Nat) : List Byte :=
  (indices.map L.uint32Bytes).flatten

/-! ## `Model` -/

/-- What `tinyobj::LoadObj` hands back (materials are not used). -/
structure LoadObjResult (F : Type) where
  ret : Bool
  err : String
  attrib : attrib_t F
  shapes : List shape_t

/-- The members of `Model` that `Model.cpp` uses. -/
structure Model where
  id : String
  device : Handle
  queue : Handle
  vertexBuffer : VulkanDeviceBuffer
  indexBuffer : VulkanDeviceBuffer
  indexCount : Nat
deriving DecidableEq

namespace Model

/-- Lines 52-100 of `Model::Model`: staging, copy, submit, wait, release. -/
def upload {F : Type} (L : HostLayout F) (self : Model) (vertices : List (Vertex F))
    (indices : List Nat) (device : VulkanDevice) (queue commandPool : Handle) :
    Except Fault (Model × VulkanDevice) := do
  let self := { self with indexCount := indexCountOf indices }
  let vbSize := vertices.length * L.sizeofVertex
  let ibSize := indices.length * 4
  let (vertexStaging, device) := device.createBuffer VK_BUFFER_USAGE_TRANSFER_SRC_BIT
    (VK_MEMORY_PROPERTY_HOST_VISIBLE_BIT ||| VK_MEMORY_PROPERTY_HOST_COHERENT_BIT) vbSize
    (some (L.vertexData vertices))
  let (indexStaging, device) := device.createBuffer VK_BUFFER_USAGE_TRANSFER_SRC_BIT
    (VK_MEMORY_PROPERTY_HOST_VISIBLE_BIT ||| VK_MEMORY_PROPERTY_HOST_COHERENT_BIT) ibSize
    (some (L.indexData indices))
  let (vertexBuffer, device) := device.createBuffer
    (VK_BUFFER_USAGE_VERTEX_BUFFER_BIT ||| VK_BUFFER_USAGE_TRANSFER_DST_BIT)
    VK_MEMORY_PROPERTY_DEVICE_LOCAL_BIT vbSize none
  let (indexBuffer, device) := device.createBuffer
    (VK_BUFFER_USAGE_INDEX_BUFFER_BIT ||| VK_BUFFER_USAGE_TRANSFER_DST_BIT)
    VK_MEMORY_PROPERTY_DEVICE_LOCAL_BIT ibSize none
  let self := { self with vertexBuffer := vertexBuffer, indexBuffer := indexBuffer }
  let (res, copyCmd, device) := device.vkAllocateCommandBuffers device.logicalDevice commandPool
    VK_COMMAND_BUFFER_LEVEL_PRIMARY 1
  VK_CHECK_RESULT res
  let (res, device) := device.vkBeginCommandBuffer copyCmd
  VK_CHECK_RESULT res
  let device := device.record copyCmd
    (.vkCmdCopyBuffer copyCmd vertexStaging.buffer vertexBuffer.buffer [⟨0, 0, vbSize⟩])
  let device := device.record copyCmd
    (.vkCmdCopyBuffer copyCmd indexStaging.buffer indexBuffer.buffer [⟨0, 0, ibSize⟩])
  let (res, device) := device.vkEndCommandBuffer copyCmd
  VK_CHECK_RESULT res
  let (res, fence, device) := device.vkCreateFence device.logicalDevice
  VK_CHECK_RESULT res
  match device.vkQueueSubmit queue [copyCmd] fence with
  | none => throw Fault.undefinedBehaviour
  | some (res, device) =>
    VK_CHECK_RESULT res
    let (res, device) := device.vkWaitForFences device.logicalDevice [fence] VK_TRUE 100000000000
    VK_CHECK_RESULT res
    let device := device.vkDestroyFence device.logicalDevice fence
    let device := device.vkDestroyBuffer device.logicalDevice vertexStaging.buffer
    let device := device.vkFreeMemory device.logicalDevice vertexStaging.memory
    let device := device.vkDestroyBuffer device.logicalDevice indexStaging.buffer
    let device := device.vkFreeMemory device.logicalDevice indexStaging.memory
    pure (self, device)

/-- The constructor `Model::Model`. `self` holds the members as they are before
the constructor body runs; the initialiser list sets `id`, `device`, `queue`.
A non-empty parser error is logged to `std::cerr` and the constructor returns. -/
def ctor {F : Type} [Zero F] (L : HostLayout F) (self : Model) (id : String)
    (loaded : LoadObjResult F) (device : VulkanDevice) (queue commandPool : Handle) :
    Except Fault (Model × VulkanDevice) :=
  let self := { self with id := id, device := device.logicalDevice, queue := queue }
  if loaded.err ≠ "" then
    .ok (self, device)
  else
    match assemble loaded.attrib loaded.shapes with
    | none => .error Fault.undefinedBehaviour
    | some (vertices, indices) => upload L self vertices indices device queue commandPool

/-- The destructor `Model::~Model`. -/
def dtor (self : Model) (device : VulkanDevice) : VulkanDevice :=
  let device := device.vkDestroyBuffer self.device self.vertexBuffer.buffer
  let device := device.vkFreeMemory self.device self.vertexBuffer.memory
  let device := device.vkDestroyBuffer self.device self.indexBuffer.buffer
  device.vkFreeMemory self.device self.indexBuffer.memory

/-- The method `Model::draw`. -/
def draw (self : Model) (commandBuffer : Handle) (device : VulkanDevice) : VulkanDevice :=
  let offset : Nat := 0
  let device := device.record commandBuffer
    (.vkCmdBindVertexBuffers commandBuffer 0 1 [self.vertexBuffer.buffer] [offset])
  let device := device.record commandBuffer
    (.vkCmdBindIndexBuffer commandBuffer self.indexBuffer.buffer 0 VK_INDEX_TYPE_UINT32)
  device.record commandBuffer (.vkCmdDrawIndexed commandBuffer self.indexCount 1 0 0 0)

end Model

/-! ## `Projectile` -/

/-- The constructor `glm::mat4(s)`: `s` on the diagonal. -/
def mat4.diag {F : Type} [Zero F] (s : F) : mat4 F :=
  ⟨⟨s, 0, 0, 0⟩, ⟨0, s, 0, 0⟩, ⟨0, 0, s, 0⟩, ⟨0, 0, 0, s⟩⟩

/-- The function `glm::translate(m, v)` as GLM defines it:
`Result[3] = m[0] * v[0] + m[1] * v[1] + m[2] * v[2] + m[3]`. -/
def translate {F : Type} [Add F] [Mul F] (m : mat4 F) (v : vec3 F) : mat4 F :=
  { m with c3 := m.c0 * v.x + m.c1 * v.y + m.c2 * v.z + m.c3 }

/-- The members of `Projectile` (with those of its base `GameEntity`) that
`Projectile.cpp` uses. `model` is the non-owning `Model*`, `none` when null. -/
structure Projectile (F : Type) where
  position : vec3 F
  speed : vec3 F
  size : vec3 F
  ubo : VulkanDeviceBuffer
  descriptorSetLayout : Handle
  descriptorSet : Handle
  uniformData : Matrices F
  origin : vec3 F
  direction : vec3 F
  updated : Bool
  model : Option Handle
deriving DecidableEq

/-- The call `memcpy(mapped, src, n)` into mapped buffer storage: undefined for
a null or dangling mapping and when the bytes do not fit. -/
def memcpyToMapped (device : VulkanDevice) (mapped : Option Handle) (src : List Byte) :
    Option VulkanDevice :=
  match mapped with
  | none => none
  | some b =>
    match device.buffers b with
    | none => none
    | some obj =>
      if src.length ≤ obj.data.length then
        some { device with
          buffers := Function.update device.buffers b
            (some { obj with data := src ++ obj.data.drop src.length }) }
      else none

namespace Projectile

/-- The method `Projectile::allocateResources`. -/
def allocateResources {F : Type} (L : HostLayout F) (self : Projectile F)
    (device : VulkanDevice) (descriptorPool : Handle) :
    Except Fault (Projectile F × VulkanDevice) := do
  let (ubo, device) := device.createBuffer VK_BUFFER_USAGE_UNIFORM_BUFFER_BIT
    (VK_MEMORY_PROPERTY_HOST_VISIBLE_BIT ||| VK_MEMORY_PROPERTY_HOST_COHERENT_BIT)
    L.sizeofMatrices (some (L.matricesBytes self.uniformData))
  let self := { self with ubo := ubo }
  let setLayoutBindings : List VkDescriptorSetLayoutBinding :=
    [⟨0, VK_DESCRIPTOR_TYPE_UNIFORM_BUFFER, 1, VK_SHADER_STAGE_VERTEX_BIT⟩]
  let (res, layout, device) :=
    device.vkCreateDescriptorSetLayout device.logicalDevice (setLayoutBindings.take 1)
  let self := { self with descriptorSetLayout := layout }
  VK_CHECK_RESULT res
  let (res, set, device) := device.vkAllocateDescriptorSets device.logicalDevice descriptorPool
    [self.descriptorSetLayout]
  let self := { self with descriptorSet := set }
  VK_CHECK_RESULT res
  let writeDescriptorSet : VkWriteDescriptorSet :=
    { dstSet := self.descriptorSet, dstBinding := 0, descriptorCount := 1,
      descriptorType := VK_DESCRIPTOR_TYPE_UNIFORM_BUFFER,
      pBufferInfo := self.ubo }
  let device := device.vkUpdateDescriptorSets device.logicalDevice [writeDescriptorSet]
  pure (self, device)

/-- The method `Projectile::updateUniformdata`. -/
def updateUniformdata {F : Type} [Zero F] [One F] [Add F] [Mul F] (L : HostLayout F)
    (self : Projectile F) (device : VulkanDevice) : Option (Projectile F × VulkanDevice) :=
  if self.updated then
    let self := { self with uniformData := ⟨translate (mat4.diag 1) self.position⟩ }
    match memcpyToMapped device self.ubo.mapped (L.matricesBytes self.uniformData) with
    | none => none
    | some device => some ({ self with updated := false }, device)
  else
    some ({ self with updated := false }, device)

/-- The method `Projectile::update`. -/
def update {F : Type} [Zero F] [One F] [Add F] [Mul F] (L : HostLayout F)
    (self : Projectile F) (deltatime : F) (device : VulkanDevice) :
    Option (Projectile F × VulkanDevice) :=
  let self := { self with position := self.position + self.direction * self.speed * deltatime }
  let self := { self with updated := true }
  if self.updated then updateUniformdata L self device else some (self, device)

/-- The destructor `Projectile::~Projectile`. -/
def dtor {F : Type} (self : Projectile F) (device : VulkanDevice) : VulkanDevice :=
  let device := device.vkDestroyDescriptorSetLayout self.ubo.device self.descriptorSetLayout
  device.bufferDestroy self.ubo

/-- The calls `update(dt_1); ...; update(dt_n)` on one entity, in list order. -/
def updates {F : Type} [Zero F] [One F] [Add F] [Mul F] (L : HostLayout F) :
    Projectile F → List F → VulkanDevice → Option (Projectile F × VulkanDevice)
  | self, [], device => some (self, device)
  | self, deltatime :: rest, device =>
    match update L self deltatime device with
    | none => none
    | some (self, device) => updates L self rest device

end Projectile

/-! ## IEEE-754 binary32

The `float` of the sources: 24 significant bits, exponents of the unit in the
last place from `-149` to `104`, round to nearest with ties to even. -/

/-- A binary32 datum. `finite negative m e` is `(-1)^negative * m * 2^e`; the
numbers of the format are those with `m < 2 ^ 24`, `-149 ≤ e ≤ 104` and either
`2 ^ 23 ≤ m` (normal) or `e = -149` (zero and subnormal). -/
inductive Binary32 where
  | nan
  | inf (negative : Bool)
  | finite (negative : Bool) (mantissa : Nat) (exponent : Int)
deriving DecidableEq

/-- Number of binary digits of `n`, by halving at most `fuel` times. -/
def bitLengthAux : Nat → Nat → Nat
  | 0, _ => 0
  | fuel + 1, n => if n = 0 then 0 else bitLengthAux fuel (n / 2) + 1

/-- Number of binary digits of `n` (`0` for `0`). -/
def bitLength (n : Nat) : Nat := bitLengthAux n n

namespace Binary32

/-- The exact value `(-1)^negative * m * 2^e` rounded to binary32: to nearest,
ties to the even mantissa, overflow to infinity, gradual underflow. -/
def round (negative : Bool) (m : Nat) (e : Int) : Binary32 :=
  if m = 0 then .finite negative 0 (-149)
  else
    let target : Int := max (e + bitLength m - 24) (-149)
    if target ≤ e then
      if 104 < target then .inf negative
      else .finite negative (m * 2 ^ (e - target).toNat) target
    else
      let shift := (target - e).toNat
      let q := m / 2 ^ shift
      let r := m % 2 ^ shift
      let up : Bool := decide (2 ^ shift < 2 * r) || (decide (2 ^ shift = 2 * r) && decide (q % 2 = 1))
      let q := if up then q + 1 else q
      if q = 2 ^ 24 then
        if 104 < target + 1 then .inf negative else .finite negative (2 ^ 23) (target + 1)
      else if 104 < target then .inf negative
      else .finite negative q target

/-- Addition of two binary32 data. An exact zero sum is `-0` only when both
operands are negative. -/
def add : Binary32 → Binary32 → Binary32
  | .nan, _ => .nan
  | _, .nan => .nan
  | .inf s, .inf t => if s = t then .inf s else .nan
  | .inf s, .finite _ _ _ => .inf s
  | .finite _ _ _, .inf t => .inf t
  | .finite s m e, .finite t n f =>
    let g := min e f
    let a : Int := (if s then -1 else 1) * ((m * 2 ^ (e - g).toNat : Nat) : Int)
    let b : Int := (if t then -1 else 1) * ((n * 2 ^ (f - g).toNat : Nat) : Int)
    let c := a + b
    if c = 0 then .finite (s && t) 0 (-149)
    else round (decide (c < 0)) c.natAbs g

/-- Multiplication of two binary32 data; `0 * inf` is NaN. -/
def mul : Binary32 → Binary32 → Binary32
  | .nan, _ => .nan
  | _, .nan => .nan
  | .inf s, .inf t => .inf (xor s t)
  | .inf s, .finite t n _ => if n = 0 then .nan else .inf (xor s t)
  | .finite s m _, .inf t => if m = 0 then .nan else .inf (xor s t)
  | .finite s m e, .finite t n f => round (xor s t) (m * n) (e + f)

/-- The float nearest to `m * 2^e`. -/
def lit (m : Nat) (e : Int) : Binary32 := round false m e

/-- The bit pattern of a datum (quiet NaN for `nan`). -/
def bits : Binary32 → Nat
  | .nan => 0x7FC00000
  | .inf s => (if s then 2 ^ 31 else 0) + 0x7F800000
  | .finite s m e =>
    (if s then 2 ^ 31 else 0) +
      (if 2 ^ 23 ≤ m then (e + 150).toNat * 2 ^ 23 + (m - 2 ^ 23) else m)

/-- A number of the format: finite, mantissa below `2 ^ 24`, exponent in range,
normal or at the smallest exponent. -/
def IsNumber : Binary32 → Prop
  | .finite _ m e => m < 2 ^ 24 ∧ -149 ≤ e ∧ e ≤ 104 ∧ (2 ^ 23 ≤ m ∨ e = -149)
  | _ => False

/-- A zero of either sign. -/
def IsZero : Binary32 → Prop
  | .finite _ m _ => m = 0
  | _ => False

/-- Equality of numbers as `==` compares them: the same datum, or two zeros. -/
def Same (a b : Binary32) : Prop := a = b ∨ (IsZero a ∧ IsZero b)

instance instDecidableIsNumber (x : Binary32) : Decidable (IsNumber x) := by
  cases x <;> unfold IsNumber <;> infer_instance

instance instDecidableIsZero (x : Binary32) : Decidable (IsZero x) := by
  cases x <;> unfold IsZero <;> infer_instance

instance instDecidableSame (a b : Binary32) : Decidable (Same a b) := by
  unfold Same
  infer_instance

end Binary32

instance instZeroBinary32 : Zero Binary32 := ⟨.finite false 0 (-149)⟩
instance instOneBinary32 : One Binary32 := ⟨.finite false (2 ^ 23) (-23)⟩
instance instAddBinary32 : Add Binary32 := ⟨Binary32.add⟩
instance instMulBinary32 : Mul Binary32 := ⟨Binary32.mul⟩

/-- The constructor `Projectile::Projectile(model, position, direction)` at the
`float` of the sources: `speed = glm::vec3(7.5f)`,
`size = glm::vec3(0.25f, 0.5f, 0.25f)`. `self` holds the members that the
constructor does not set. -/
def Projectile.ctor (self : Projectile Binary32) (model : Option Handle)
    (position direction : vec3 Binary32) : Projectile Binary32 :=
  { self with
    model := model
    origin := position
    direction := direction
    position := position
    speed := ⟨Binary32.lit 15 (-1), Binary32.lit 15 (-1), Binary32.lit 15 (-1)⟩
    size := ⟨Binary32.lit 1 (-2), Binary32.lit 1 (-1), Binary32.lit 1 (-2)⟩ }

/-! ## Expected call sequences -/

/-- The calls of a successful `Model::Model` after the parse, in order; `h` is
the first handle the device hands out. -/
def uploadCalls (logicalDevice queue commandPool h vbSize ibSize : Nat)
    (vertexData indexData : List Byte) : List Call :=
  [.createBuffer VK_BUFFER_USAGE_TRANSFER_SRC_BIT
      (VK_MEMORY_PROPERTY_HOST_VISIBLE_BIT ||| VK_MEMORY_PROPERTY_HOST_COHERENT_BIT) vbSize
      (some vertexData) h (h + 1),
    .createBuffer VK_BUFFER_USAGE_TRANSFER_SRC_BIT
      (VK_MEMORY_PROPERTY_HOST_VISIBLE_BIT ||| VK_MEMORY_PROPERTY_HOST_COHERENT_BIT) ibSize
      (some indexData) (h + 2) (h + 3),
    .createBuffer (VK_BUFFER_USAGE_VERTEX_BUFFER_BIT ||| VK_BUFFER_USAGE_TRANSFER_DST_BIT)
      VK_MEMORY_PROPERTY_DEVICE_LOCAL_BIT vbSize none (h + 4) (h + 5),
    .createBuffer (VK_BUFFER_USAGE_INDEX_BUFFER_BIT ||| VK_BUFFER_USAGE_TRANSFER_DST_BIT)
      VK_MEMORY_PROPERTY_DEVICE_LOCAL_BIT ibSize none (h + 6) (h + 7),
    .vkAllocateCommandBuffers logicalDevice commandPool VK_COMMAND_BUFFER_LEVEL_PRIMARY 1 (h + 8),
    .vkBeginCommandBuffer (h + 8),
    .vkCmdCopyBuffer (h + 8) h (h + 4) [⟨0, 0, vbSize⟩],
    .vkCmdCopyBuffer (h + 8) (h + 2) (h + 6) [⟨0, 0, ibSize⟩],
    .vkEndCommandBuffer (h + 8),
    .vkCreateFence logicalDevice (h + 9),
    .vkQueueSubmit queue [h + 8] (h + 9),
    .vkWaitForFences logicalDevice [h + 9] VK_TRUE 100000000000,
    .vkDestroyFence logicalDevice (h + 9),
    .vkDestroyBuffer logicalDevice h,
    .vkFreeMemory logicalDevice (h + 1),
    .vkDestroyBuffer logicalDevice (h + 2),
    .vkFreeMemory logicalDevice (h + 3)]

/-- The calls of `Projectile::allocateResources`, in order; `h` is the first
handle the device hands out. -/
def allocateCalls (logicalDevice descriptorPool h sizeofMatrices : Nat)
    (uniformBytes : List Byte) : List Call :=
  [.createBuffer VK_BUFFER_USAGE_UNIFORM_BUFFER_BIT
      (VK_MEMORY_PROPERTY_HOST_VISIBLE_BIT ||| VK_MEMORY_PROPERTY_HOST_COHERENT_BIT)
      sizeofMatrices (some uniformBytes) h (h + 1),
    .vkCreateDescriptorSetLayout logicalDevice
      [⟨0, VK_DESCRIPTOR_TYPE_UNIFORM_BUFFER, 1, VK_SHADER_STAGE_VERTEX_BIT⟩] (h + 2),
    .vkAllocateDescriptorSets logicalDevice descriptorPool [h + 2] (h + 3),
    .vkUpdateDescriptorSets logicalDevice
      [{ dstSet := h + 3, dstBinding := 0, descriptorCount := 1,
         descriptorType := VK_DESCRIPTOR_TYPE_UNIFORM_BUFFER,
         pBufferInfo := ⟨logicalDevice, h, h + 1, some h⟩ }]]

/-! ## Concrete instances -/

/-- A single triangle: three positions, three normals, no texcoords, no colors. -/
def triangleAttrib : attrib_t Int :=
  { vertices := [0, 0, 0, 1, 0, 0, 0, 1, 0]
    normals := [0, 0, 1, 0, 0, 2, 0, 0, 3]
    texcoords := []
    colors := [] }

/-- The one face of the triangle mesh. -/
def triangleShapes : List shape_t :=
  [{ name := "tri"
     mesh :=
      { indices := [⟨0, 0, -1⟩, ⟨1, 1, -1⟩, ⟨2, 2, -1⟩]
        num_face_vertices := [3]
        material_ids := [-1] } }]

/-- Two shapes (a triangle, then a quad) over shared attribute arrays with
texture coordinates and colors present. -/
def twoShapeAttrib : attrib_t Int :=
  { vertices := [0, 0, 0, 1, 0, 0, 0, 1, 0, 1, 1, 0]
    normals := [0, 0, 1]
    texcoords := [0, 0, 1, 0, 0, 1, 1, 1]
    colors := [9, 9, 9, 8, 8, 8, 7, 7, 7, 6, 6, 6] }

/-- The two shapes: one triangle, one quad. -/
def twoShapeMesh : List shape_t :=
  [{ name := "a"
     mesh :=
      { indices := [⟨0, 0, 0⟩, ⟨1, 0, 1⟩, ⟨2, 0, 2⟩]
        num_face_vertices := [3]
        material_ids := [0] } },
   { name := "b"
     mesh :=
      { indices := [⟨0, 0, 0⟩, ⟨1, 0, 1⟩, ⟨3, 0, 3⟩, ⟨2, 0, 2⟩]
        num_face_vertices := [4]
        material_ids := [0] } }]

/-- The parse of an OBJ file with positions and faces but no normals: no
error, an empty normal array and `normal_index = -1` on every face-vertex. -/
def noNormalsLoad : LoadObjResult Int :=
  { ret := true
    err := ""
    attrib := { vertices := [0, 0, 0, 1, 0, 0, 0, 1, 0], normals := [], texcoords := [],
                colors := [] }
    shapes :=
      [{ name := "tri"
         mesh :=
          { indices := [⟨0, -1, -1⟩, ⟨1, -1, -1⟩, ⟨2, -1, -1⟩]
            num_face_vertices := [3]
            material_ids := [-1] } }] }

/-- The parse of an OBJ file whose first face-vertex has a texture coordinate
and whose other two have none (`texcoord_index = -1`): no error. -/
def partialTexLoad : LoadObjResult Int :=
  { ret := true
    err := ""
    attrib := { vertices := [0, 0, 0, 1, 0, 0, 0, 1, 0], normals := [0, 0, 1],
                texcoords := [0, 0], colors := [] }
    shapes :=
      [{ name := "tri"
         mesh :=
          { indices := [⟨0, 0, 0⟩, ⟨1, 0, -1⟩, ⟨2, 0, -1⟩]
            num_face_vertices := [3]
            material_ids := [-1] } }] }

/-- Attribute arrays with 2147483652 position floats (715827884 positions). -/
def hugeAttrib : attrib_t Int :=
  { vertices := List.replicate 2147483652 0, normals := [0, 0, 1], texcoords := [],
    colors := [] }

/-- One point face that uses the last position, `vertex_index = 715827883`. -/
def hugeShapes : List shape_t :=
  [{ name := "p"
     mesh :=
      { indices := [⟨715827883, 0, -1⟩]
        num_face_vertices := [1]
        material_ids := [-1] } }]

/-- Four little-endian bytes of an integer reduced to 32 bits. -/
def wordBytes (n : Int) : List Byte :=
  let m := (n % 2 ^ 32).toNat
  [m % 256, m / 256 % 256, m / 65536 % 256, m / 16777216 % 256]

def vec3Bytes (v : vec3 Int) : List Byte := wordBytes v.x ++ wordBytes v.y ++ wordBytes v.z

def vec4Bytes (v : vec4 Int) : List Byte :=
  wordBytes v.x ++ wordBytes v.y ++ wordBytes v.z ++ wordBytes v.w

/-- A layout for integer scalars stored as 32-bit words: `sizeof(Vertex) = 44`,
`sizeof(Matrices) = 64`. -/
def intLayout : HostLayout Int where
  sizeofVertex := 44
  vertexBytes v :=
    vec3Bytes v.position ++ vec3Bytes v.normal ++ (wordBytes v.uv.x ++ wordBytes v.uv.y) ++
      vec3Bytes v.color
  vertexBytes_length _ := rfl
  uint32Bytes i := wordBytes i
  uint32Bytes_length _ := rfl
  sizeofMatrices := 64
  matricesBytes m :=
    vec4Bytes m.model.c0 ++ vec4Bytes m.model.c1 ++ vec4Bytes m.model.c2 ++ vec4Bytes m.model.c3
  matricesBytes_length _ := rfl

/-- A device with nothing created yet that completes submitted work. -/
def device0 : VulkanDevice :=
  { logicalDevice := 1
    nextHandle := 100
    buffers := fun _ => none
    recorded := fun _ => []
    signaled := fun _ => false
    completes := true
    calls := [] }

/-- A `VulkanDeviceBuffer` that was never created: null handles. -/
def nullBuffer : VulkanDeviceBuffer :=
  { device := VK_NULL_HANDLE, buffer := VK_NULL_HANDLE, memory := VK_NULL_HANDLE, mapped := none }

/-- Members of a `Model` before its constructor body, with `indexCount` at 0. -/
def zeroModel : Model :=
  { id := "", device := 0, queue := 0, vertexBuffer := nullBuffer, indexBuffer := nullBuffer,
    indexCount := 0 }

/-- A parse that reported an error. -/
def failedLoad : LoadObjResult Int :=
  { ret := false, err := "Cannot open file", attrib := ⟨[], [], [], []⟩, shapes := [] }

/-- The parse of the single triangle. -/
def triangleLoad : LoadObjResult Int :=
  { ret := true, err := "", attrib := triangleAttrib, shapes := triangleShapes }

/-- The entity made by `Projectile(model, position, direction)` on which
`allocateResources` was never called: buffer and layout handles are null. -/
def freshProjectile : Projectile Int :=
  { position := ⟨0, 0, 0⟩, speed := ⟨7, 7, 7⟩, size := ⟨1, 2, 1⟩, ubo := nullBuffer,
    descriptorSetLayout := VK_NULL_HANDLE, descriptorSet := VK_NULL_HANDLE,
    uniformData := ⟨mat4.diag 1⟩, origin := ⟨0, 0, 0⟩, direction := ⟨0, 1, 0⟩, updated := true,
    model := some 50 }

/-- The entity and device right after `allocateResources` on `freshProjectile`. -/
def allocated : Projectile Int × VulkanDevice :=
  match Projectile.allocateResources intLayout freshProjectile device0 4 with
  | .ok r => r
  | .error _ => (freshProjectile, device0)

/-- The uniform buffer object that `allocateResources` creates for
`freshProjectile`. -/
def allocatedUbo : BufferObject :=
  { usage := VK_BUFFER_USAGE_UNIFORM_BUFFER_BIT
    memoryProperties := VK_MEMORY_PROPERTY_HOST_VISIBLE_BIT ||| VK_MEMORY_PROPERTY_HOST_COHERENT_BIT
    size := 64
    memory := 101
    data := intLayout.matricesBytes ⟨mat4.diag 1⟩ }

/-- Four little-endian bytes of a 32-bit pattern. -/
def le32 (n : Nat) : List Byte := [n % 256, n / 256 % 256, n / 65536 % 256, n / 16777216 % 256]

/-- The object representation of a `float`. -/
def floatBytes (x : Binary32) : List Byte := le32 x.bits

def floatVec3Bytes (v : vec3 Binary32) : List Byte :=
  floatBytes v.x ++ floatBytes v.y ++ floatBytes v.z

def floatVec4Bytes (v : vec4 Binary32) : List Byte :=
  floatBytes v.x ++ floatBytes v.y ++ floatBytes v.z ++ floatBytes v.w

/-- The layout of the sources on a little-endian machine: `sizeof(Vertex) = 44`,
`sizeof(Matrices) = 64`, matrices stored column by column. -/
def floatLayout : HostLayout Binary32 where
  sizeofVertex := 44
  vertexBytes v :=
    floatVec3Bytes v.position ++ floatVec3Bytes v.normal ++
      (floatBytes v.uv.x ++ floatBytes v.uv.y) ++ floatVec3Bytes v.color
  vertexBytes_length _ := rfl
  uint32Bytes i := le32 i
  uint32Bytes_length _ := rfl
  sizeofMatrices := 64
  matricesBytes m :=
    floatVec4Bytes m.model.c0 ++ floatVec4Bytes m.model.c1 ++ floatVec4Bytes m.model.c2 ++
      floatVec4Bytes m.model.c3
  matricesBytes_length _ := rfl

/-- Members of a `Projectile` before its constructor body: zeroed vectors and
matrix, null handles, `updated = true` from its member initialiser. -/
def blankProjectile : Projectile Binary32 :=
  { position := 0, speed := 0, size := 0, ubo := nullBuffer,
    descriptorSetLayout := VK_NULL_HANDLE, descriptorSet := VK_NULL_HANDLE,
    uniformData := ⟨mat4.diag 0⟩, origin := 0, direction := 0, updated := true, model := none }

/-- The entity `Projectile(model, position, direction)` after
`allocateResources` on the fresh device, with the device. -/
def launch (position direction : vec3 Binary32) : Option (Projectile Binary32 × VulkanDevice) :=
  (Projectile.allocateResources floatLayout
    (Projectile.ctor blankProjectile (some 50) position direction) device0 4).toOption

/-! ## Lemmas on vertex assembly -/

theorem vectorAt_eq_some_iff {α : Type} (v : List α) (k : Int) (a : α) :
    vectorAt v k = some a ↔ 0 ≤ k ∧ v[k.toNat]? = some a := by
  unfold vectorAt
  by_cases h : 0 ≤ k <;> simp [h]

theorem vectorAt_succ {α : Type} (v : List α) (k : Int) (j : Nat) (a : α) (h : 0 ≤ k) :
    vectorAt v (k + j) = some a ↔ v[k.toNat + j]? = some a := by
  rw [vectorAt_eq_some_iff]
  have h1 : (k + j).toNat = k.toNat + j := by omega
  rw [h1]
  constructor
  · exact fun h => h.2
  · exact fun h2 => ⟨by omega, h2⟩

theorem make_vec3_eq_some_iff {F : Type} (v : List F) (k : Int) (r : vec3 F) :
    make_vec3 v k = some r ↔
      0 ≤ k ∧ v[k.toNat]? = some r.x ∧ v[k.toNat + 1]? = some r.y ∧
        v[k.toNat + 2]? = some r.z := by
  unfold make_vec3
  by_cases h : 0 ≤ k
  · have e1 := fun a => vectorAt_succ v k 1 a h
    have e2 := fun a => vectorAt_succ v k 2 a h
    simp only [Nat.cast_one, Nat.cast_ofNat] at e1 e2
    cases r with
    | mk x y z =>
      simp only [Option.bind_eq_bind, Option.pure_def, Option.bind_eq_some, Option.some.injEq,
        vec3.mk.injEq, vectorAt_eq_some_iff, e1, e2, h, true_and]
      constructor
      · rintro ⟨a, ha, b, hb, c, hc, rfl, rfl, rfl⟩
        exact ⟨ha, hb, hc⟩
      · rintro ⟨ha, hb, hc⟩
        exact ⟨x, ha, y, hb, z, hc, rfl, rfl, rfl⟩
  · have : vectorAt v k = none := by simp [vectorAt, h]
    simp [this, h]

theorem make_vec2_eq_some_iff {F : Type} (v : List F) (k : Int) (r : vec2 F) :
    make_vec2 v k = some r ↔
      0 ≤ k ∧ v[k.toNat]? = some r.x ∧ v[k.toNat + 1]? = some r.y := by
  unfold make_vec2
  by_cases h : 0 ≤ k
  · have e1 := fun a => vectorAt_succ v k 1 a h
    simp only [Nat.cast_one] at e1
    cases r with
    | mk x y =>
      simp only [Option.bind_eq_bind, Option.pure_def, Option.bind_eq_some, Option.some.injEq,
        vec2.mk.injEq, vectorAt_eq_some_iff, e1, h, true_and]
      constructor
      · rintro ⟨a, ha, b, hb, rfl, rfl⟩
        exact ⟨ha, hb⟩
      · rintro ⟨ha, hb⟩
        exact ⟨x, ha, y, hb, rfl, rfl⟩
  · have : vectorAt v k = none := by simp [vectorAt, h]
    simp [this, h]

theorem make_vec3_isSome {F : Type} (v : List F) (k : Int) (h0 : 0 ≤ k)
    (h2 : k + 2 < v.length) : ∃ r, make_vec3 v k = some r := by
  have hx : k.toNat < v.length := by omega
  have hy : k.toNat + 1 < v.length := by omega
  have hz : k.toNat + 2 < v.length := by omega
  refine ⟨⟨v[k.toNat], v[k.toNat + 1], v[k.toNat + 2]⟩, ?_⟩
  rw [make_vec3_eq_some_iff]
  exact ⟨h0, List.getElem?_eq_getElem hx, List.getElem?_eq_getElem hy,
    List.getElem?_eq_getElem hz⟩

theorem make_vec2_isSome {F : Type} (v : List F) (k : Int) (h0 : 0 ≤ k)
    (h1 : k + 1 < v.length) : ∃ r, make_vec2 v k = some r := by
  have hx : k.toNat < v.length := by omega
  have hy : k.toNat + 1 < v.length := by omega
  refine ⟨⟨v[k.toNat], v[k.toNat + 1]⟩, ?_⟩
  rw [make_vec2_eq_some_iff]
  exact ⟨h0, List.getElem?_eq_getElem hx, List.getElem?_eq_getElem hy⟩

theorem intMul_eq_some_iff (a b k : Int) :
    intMul a b = some k ↔ (-2 ^ 31 ≤ a * b ∧ a * b < 2 ^ 31) ∧ k = a * b := by
  unfold intMul
  constructor
  · intro h
    split_ifs at h with hr
    exact ⟨hr, (Option.some.inj h).symm⟩
  · rintro ⟨hr, rfl⟩
    rw [if_pos hr]

theorem readVec3_eq_some_iff {F : Type} (v : List F) (i : Int) (r : vec3 F) :
    readVec3 v i = some r ↔
      (-2 ^ 31 ≤ 3 * i ∧ 3 * i < 2 ^ 31) ∧ make_vec3 v (3 * i) = some r := by
  unfold readVec3
  simp only [Option.bind_eq_bind, Option.bind_eq_some, intMul_eq_some_iff]
  constructor
  · rintro ⟨k, ⟨hk, rfl⟩, h⟩
    exact ⟨hk, h⟩
  · rintro ⟨hk, h⟩
    exact ⟨_, ⟨hk, rfl⟩, h⟩

theorem readVec2_eq_some_iff {F : Type} (v : List F) (i : Int) (r : vec2 F) :
    readVec2 v i = some r ↔
      (-2 ^ 31 ≤ 2 * i ∧ 2 * i < 2 ^ 31) ∧ make_vec2 v (2 * i) = some r := by
  unfold readVec2
  simp only [Option.bind_eq_bind, Option.bind_eq_some, intMul_eq_some_iff]
  constructor
  · rintro ⟨k, ⟨hk, rfl⟩, h⟩
    exact ⟨hk, h⟩
  · rintro ⟨hk, h⟩
    exact ⟨_, ⟨hk, rfl⟩, h⟩

theorem readVec3_isSome {F : Type} (v : List F) (i : Int) (h0 : 0 ≤ i)
    (h2 : 3 * i + 2 < v.length) (hint : 3 * i < 2 ^ 31) : ∃ r, readVec3 v i = some r := by
  obtain ⟨r, hr⟩ := make_vec3_isSome v (3 * i) (by omega) h2
  exact ⟨r, (readVec3_eq_some_iff v i r).2 ⟨⟨by omega, hint⟩, hr⟩⟩

theorem readVec2_isSome {F : Type} (v : List F) (i : Int) (h0 : 0 ≤ i)
    (h1 : 2 * i + 1 < v.length) (hint : 2 * i < 2 ^ 31) : ∃ r, readVec2 v i = some r := by
  obtain ⟨r, hr⟩ := make_vec2_isSome v (2 * i) (by omega) h1
  exact ⟨r, (readVec2_eq_some_iff v i r).2 ⟨⟨by omega, hint⟩, hr⟩⟩

theorem assembleVertex_eq_some_iff {F : Type} [Zero F] (attrib : attrib_t F) (idx : index_t)
    (v : Vertex F) :
    assembleVertex attrib idx = some v ↔
      readVec3 attrib.vertices idx.vertex_index = some v.position ∧
      readVec3 attrib.normals idx.normal_index = some v.normal ∧
      (if attrib.texcoords.length > 0 then
          readVec2 attrib.texcoords idx.texcoord_index = some v.uv
        else v.uv = 0) ∧
      (if attrib.colors.length > 0 then
          readVec3 attrib.colors idx.vertex_index = some v.color
        else v.color = 0) := by
  cases v with
  | mk p n u c =>
    unfold assembleVertex
    by_cases ht : attrib.texcoords.length > 0 <;> by_cases hc : attrib.colors.length > 0 <;>
      simp only [ht, hc, if_true, if_false, Option.bind_eq_bind, Option.pure_def,
        Option.bind_eq_some, Option.some.injEq, Vertex.mk.injEq, Option.some_bind]
    · constructor
      · rintro ⟨p', hp, n', hn, u', hu, c', hc', rfl, rfl, rfl, rfl⟩
        exact ⟨hp, hn, hu, hc'⟩
      · rintro ⟨hp, hn, hu, hc'⟩
        exact ⟨p, hp, n, hn, u, hu, c, hc', rfl, rfl, rfl, rfl⟩
    · constructor
      · rintro ⟨p', hp, n', hn, u', hu, rfl, rfl, rfl, rfl⟩
        exact ⟨hp, hn, hu, rfl⟩
      · rintro ⟨hp, hn, hu, hc'⟩
        exact ⟨p, hp, n, hn, u, hu, rfl, rfl, rfl, hc'.symm⟩
    · constructor
      · rintro ⟨p', hp, n', hn, c', hc', rfl, rfl, rfl, rfl⟩
        exact ⟨hp, hn, rfl, hc'⟩
      · rintro ⟨hp, hn, hu, hc'⟩
        exact ⟨p, hp, n, hn, c, hc', rfl, rfl, hu.symm, rfl⟩
    · constructor
      · rintro ⟨p', hp, n', hn, rfl, rfl, rfl, rfl⟩
        exact ⟨hp, hn, rfl, rfl⟩
      · rintro ⟨hp, hn, hu, hc'⟩
        exact ⟨p, hp, n, hn, rfl, rfl, hu.symm, hc'.symm⟩

theorem assembleVertex_isSome {F : Type} [Zero F] (attrib : attrib_t F) (idx : index_t)
    (h : IndexReadable attrib idx) : ∃ v, assembleVertex attrib idx = some v := by
  obtain ⟨⟨⟨hv0, hv2⟩, ⟨hn0, hn2⟩, ht, hc⟩, hvi, hni, hti⟩ := h
  obtain ⟨p, hp⟩ := readVec3_isSome attrib.vertices idx.vertex_index hv0 hv2 hvi
  obtain ⟨n, hn⟩ := readVec3_isSome attrib.normals idx.normal_index hn0 hn2 hni
  by_cases htc : attrib.texcoords.length > 0
  · obtain ⟨u, hu⟩ := readVec2_isSome attrib.texcoords idx.texcoord_index (ht htc).1 (ht htc).2
      (hti htc)
    by_cases hcc : attrib.colors.length > 0
    · obtain ⟨c, hcol⟩ := readVec3_isSome attrib.colors idx.vertex_index hv0 (hc hcc) hvi
      exact ⟨⟨p, n, u, c⟩, (assembleVertex_eq_some_iff _ _ _).2 ⟨hp, hn, by simp [htc, hu],
        by simp [hcc, hcol]⟩⟩
    · exact ⟨⟨p, n, u, 0⟩, (assembleVertex_eq_some_iff _ _ _).2 ⟨hp, hn, by simp [htc, hu],
        by simp [hcc]⟩⟩
  · by_cases hcc : attrib.colors.length > 0
    · obtain ⟨c, hcol⟩ := readVec3_isSome attrib.colors idx.vertex_index hv0 (hc hcc) hvi
      exact ⟨⟨p, n, 0, c⟩, (assembleVertex_eq_some_iff _ _ _).2 ⟨hp, hn, by simp [htc],
        by simp [hcc, hcol]⟩⟩
    · exact ⟨⟨p, n, 0, 0⟩, (assembleVertex_eq_some_iff _ _ _).2 ⟨hp, hn, by simp [htc],
        by simp [hcc]⟩⟩

theorem assembleVertex_eq_vertexOf {F : Type} [Zero F] (attrib : attrib_t F) (idx : index_t)
    (h : IndexReadable attrib idx) : assembleVertex attrib idx = some (vertexOf attrib idx) := by
  obtain ⟨v, hv⟩ := assembleVertex_isSome attrib idx h
  simp [vertexOf, hv]

theorem vertexLoop_eq {F : Type} [Zero F] (attrib : attrib_t F) (mesh : mesh_t)
    (index_start index_offset : Nat) (n : Nat) :
    ∀ (v : Nat) (out : List (Vertex F) × List Nat),
      index_offset + v + n ≤ mesh.indices.length →
      (∀ idx ∈ (mesh.indices.drop (index_offset + v)).take n, IndexReadable attrib idx) →
      vertexLoop attrib mesh index_start index_offset n v out =
        some (out.1 ++ ((mesh.indices.drop (index_offset + v)).take n).map (vertexOf attrib),
          out.2 ++ (List.range' v n).map (fun i => (index_offset + index_start + i) % 2 ^ 32)) := by
  induction n with
  | zero => intro v out _ _; simp [vertexLoop]
  | succ n ih =>
    intro v out hlen hin
    have hlt : index_offset + v < mesh.indices.length := by omega
    have hdrop : mesh.indices.drop (index_offset + v) =
        mesh.indices[index_offset + v] :: mesh.indices.drop (index_offset + (v + 1)) := by
      rw [List.drop_eq_getElem_cons hlt]; rfl
    rw [hdrop, List.take_succ_cons] at hin ⊢
    have h0 : IndexReadable attrib mesh.indices[index_offset + v] :=
      hin _ (List.mem_cons_self _ _)
    have hrest : ∀ idx ∈ (mesh.indices.drop (index_offset + (v + 1))).take n,
        IndexReadable attrib idx := fun idx hidx => hin idx (List.mem_cons_of_mem _ hidx)
    unfold vertexLoop
    simp only [Option.bind_eq_bind, List.getElem?_eq_getElem hlt, Option.some_bind,
      assembleVertex_eq_vertexOf attrib _ h0]
    rw [ih (v + 1) _ (by omega) hrest]
    simp [List.range'_succ]

theorem map_range'_shift (g : Nat → Nat) (a n : Nat) :
    (List.range' a n).map g = (List.range' 0 n).map (fun i => g (a + i)) := by
  apply List.ext_getElem
  · simp
  · intro i h1 h2
    simp

theorem range'_add_map (g : Nat → Nat) (a b : Nat) :
    (List.range' 0 (a + b)).map g =
      (List.range' 0 a).map g ++ (List.range' 0 b).map (fun i => g (a + i)) := by
  have h : List.range' 0 (a + b) = List.range' 0 a ++ List.range' a b := by
    have := List.range'_append 0 a b 1
    rw [Nat.add_comm a b]
    simpa using this.symm
  rw [h, List.map_append, map_range'_shift g a b]

theorem faceLoop_eq {F : Type} [Zero F] (attrib : attrib_t F) (mesh : mesh_t)
    (index_start : Nat) (faces : List Nat) :
    ∀ (f index_offset : Nat) (out : List (Vertex F) × List Nat),
      index_offset + faces.sum ≤ mesh.indices.length →
      f + faces.length ≤ mesh.material_ids.length →
      (∀ idx ∈ (mesh.indices.drop index_offset).take faces.sum, IndexReadable attrib idx) →
      faceLoop attrib mesh index_start faces f index_offset out =
        some (out.1 ++ ((mesh.indices.drop index_offset).take faces.sum).map (vertexOf attrib),
          out.2 ++ (List.range' 0 faces.sum).map
            (fun i => (index_offset + index_start + i) % 2 ^ 32)) := by
  induction faces with
  | nil => intro f index_offset out _ _ _; simp [faceLoop]
  | cons fv rest ih =>
    intro f index_offset out hlen hmat hin
    simp only [List.sum_cons, List.length_cons] at hlen hmat hin ⊢
    have hsplit : (mesh.indices.drop index_offset).take (fv + rest.sum) =
        (mesh.indices.drop index_offset).take fv ++
          (mesh.indices.drop (index_offset + fv)).take rest.sum := by
      rw [List.take_add, List.drop_drop]
    rw [hsplit] at hin ⊢
    have hin1 : ∀ idx ∈ (mesh.indices.drop (index_offset + 0)).take fv,
        IndexReadable attrib idx := fun idx hidx =>
      hin idx (List.mem_append_left _ (by simpa using hidx))
    have hin2 : ∀ idx ∈ (mesh.indices.drop (index_offset + fv)).take rest.sum,
        IndexReadable attrib idx := fun idx hidx => hin idx (List.mem_append_right _ hidx)
    have hf : f < mesh.material_ids.length := by omega
    unfold faceLoop
    rw [vertexLoop_eq attrib mesh index_start index_offset fv 0 out (by omega) hin1]
    simp only [Option.bind_eq_bind, Option.some_bind, List.getElem?_eq_getElem hf]
    rw [ih (f + 1) (index_offset + fv) _ (by omega) (by omega) hin2]
    rw [range'_add_map]
    simp only [Nat.add_zero, List.map_append, List.append_assoc, Option.some.injEq,
      Prod.mk.injEq, true_and]
    congr 2
    apply List.map_congr_left
    intro i _
    congr 1
    omega

theorem shapeLoop_eq {F : Type} [Zero F] (attrib : attrib_t F) (shapes : List shape_t) :
    ∀ (out : List (Vertex F) × List Nat), MeshReadable attrib shapes →
      shapeLoop attrib shapes out =
        some (out.1 ++ (occurrences shapes).map (vertexOf attrib),
          out.2 ++ (List.range' 0 (totalFaceVertices shapes)).map
            (fun i => (out.2.length + i) % 2 ^ 32)) := by
  induction shapes with
  | nil => intro out _; simp [shapeLoop, occurrences, totalFaceVertices]
  | cons s rest ih =>
    intro out h
    obtain ⟨hlen, hmat, hin⟩ := h s (List.mem_cons_self _ _)
    have hrest : MeshReadable attrib rest := fun t ht => h t (List.mem_cons_of_mem _ ht)
    unfold shapeLoop
    simp only [Option.bind_eq_bind]
    rw [faceLoop_eq attrib s.mesh out.2.length s.mesh.num_face_vertices 0 0 out
      (by simpa [faceVertexCount] using hlen) (by simpa using hmat)
      (by simpa [shapeOccurrences, faceVertexCount] using hin)]
    simp only [Option.some_bind]
    rw [ih _ hrest]
    simp only [occurrences, totalFaceVertices, List.map_cons, List.flatten_cons, List.sum_cons,
      List.map_append, List.append_assoc, List.drop_zero, shapeOccurrences, faceVertexCount,
      Nat.zero_add, List.length_append, List.length_map, List.length_range', Option.some.injEq,
      Prod.mk.injEq, true_and]
    rw [range'_add_map]
    congr 2
    apply List.map_congr_left
    intro i _
    congr 1
    omega

theorem assemble_eq {F : Type} [Zero F] (attrib : attrib_t F) (shapes : List shape_t)
    (h : MeshReadable attrib shapes) :
    assemble attrib shapes =
      some ((occurrences shapes).map (vertexOf attrib),
        (List.range (totalFaceVertices shapes)).map (fun i => i % 2 ^ 32)) := by
  unfold assemble
  rw [shapeLoop_eq attrib shapes _ h]
  simp [List.range_eq_range']

theorem length_occurrences {F : Type} (attrib : attrib_t F) (shapes : List shape_t)
    (h : MeshReadable attrib shapes) :
    (occurrences shapes).length = totalFaceVertices shapes := by
  induction shapes with
  | nil => simp [occurrences, totalFaceVertices]
  | cons s rest ih =>
    have hs := (h s (List.mem_cons_self _ _)).1
    have hrest : MeshReadable attrib rest := fun t ht => h t (List.mem_cons_of_mem _ ht)
    have := ih hrest
    simp only [occurrences, totalFaceVertices, List.map_cons, List.flatten_cons,
      List.length_append, List.sum_cons, shapeOccurrences, List.length_take] at this ⊢
    omega

theorem map_mod_range (n : Nat) (h : n ≤ 2 ^ 32) :
    (List.range n).map (fun i => i % 2 ^ 32) = List.range n := by
  conv_rhs => rw [← List.map_id (List.range n)]
  apply List.map_congr_left
  intro i hi
  have := List.mem_range.1 hi
  simp only [id]
  exact Nat.mod_eq_of_lt (by omega)

/-! ## Claims on vertex assembly -/

/-- C2 (counterexample): an OBJ file in which only the first face-vertex has a
texture coordinate parses without error; the texcoord array is non-empty and
the other face-vertices have `texcoord_index = -1`, so line 39 reads
`texcoords[-2]`: no vertex is assembled from the second occurrence, and the
constructor yields no `Model`. -/
theorem assemble_partial_texcoords_counterexample :
    partialTexLoad.err = "" ∧ partialTexLoad.attrib.texcoords.length > 0 ∧
    readVec2 partialTexLoad.attrib.texcoords (-1) = none ∧
    assemble partialTexLoad.attrib partialTexLoad.shapes = none ∧
    (Model.ctor intLayout zeroModel "ship" partialTexLoad device0 2 3).toOption.map
      (fun r => r.1.indexCount) = none := by
  decide

/-- C2 (amended): for every parsed mesh on which the loop is defined (every
shape has enough index entries and material ids, every face-vertex has its
position and normal index, and its texcoord index when texcoords are present,
non-negative and inside the array with the products within `int`) the `j`-th
emitted vertex is built from the `j`-th face-vertex occurrence: position from
the three floats at `3 * vertex_index`, normal from the three floats at
`3 * normal_index`, uv from the two floats at `2 * texcoord_index` when the
texcoord array is non-empty and zero otherwise, color from the three floats at
`3 * vertex_index` when the color array is non-empty and zero otherwise. A mesh
of one shape with one triangle and empty texcoord and color arrays gives three
vertices, indices `[0, 1, 2]`, and zero uv and color. -/
theorem assemble_vertex_of_occurrence {F : Type} [Zero F] (attrib : attrib_t F)
    (shapes : List shape_t) (hmesh : MeshReadable attrib shapes) :
    (∃ vertices indices, assemble attrib shapes = some (vertices, indices) ∧
      vertices.length = (occurrences shapes).length ∧
      ∀ (j : Nat) (idx : index_t), (occurrences shapes)[j]? = some idx →
        ∃ v : Vertex F, vertices[j]? = some v ∧
        (attrib.vertices[(3 * idx.vertex_index).toNat]? = some v.position.x ∧
          attrib.vertices[(3 * idx.vertex_index).toNat + 1]? = some v.position.y ∧
          attrib.vertices[(3 * idx.vertex_index).toNat + 2]? = some v.position.z) ∧
        (attrib.normals[(3 * idx.normal_index).toNat]? = some v.normal.x ∧
          attrib.normals[(3 * idx.normal_index).toNat + 1]? = some v.normal.y ∧
          attrib.normals[(3 * idx.normal_index).toNat + 2]? = some v.normal.z) ∧
        (if attrib.texcoords.length > 0 then
            attrib.texcoords[(2 * idx.texcoord_index).toNat]? = some v.uv.x ∧
            attrib.texcoords[(2 * idx.texcoord_index).toNat + 1]? = some v.uv.y
          else v.uv = 0) ∧
        (if attrib.colors.length > 0 then
            attrib.colors[(3 * idx.vertex_index).toNat]? = some v.color.x ∧
            attrib.colors[(3 * idx.vertex_index).toNat + 1]? = some v.color.y ∧
            attrib.colors[(3 * idx.vertex_index).toNat + 2]? = some v.color.z
          else v.color = 0)) ∧
    (∀ s : shape_t, shapes = [s] → s.mesh.num_face_vertices = [3] →
      attrib.texcoords = [] → attrib.colors = [] →
      ∃ v0 v1 v2 : Vertex F, assemble attrib shapes = some ([v0, v1, v2], [0, 1, 2]) ∧
        (v0.uv = 0 ∧ v0.color = 0) ∧ (v1.uv = 0 ∧ v1.color = 0) ∧
        (v2.uv = 0 ∧ v2.color = 0)) := by
  have hfacts : ∀ idx, IndexReadable attrib idx →
      (attrib.vertices[(3 * idx.vertex_index).toNat]? = some (vertexOf attrib idx).position.x ∧
        attrib.vertices[(3 * idx.vertex_index).toNat + 1]? =
          some (vertexOf attrib idx).position.y ∧
        attrib.vertices[(3 * idx.vertex_index).toNat + 2]? =
          some (vertexOf attrib idx).position.z) ∧
      (attrib.normals[(3 * idx.normal_index).toNat]? = some (vertexOf attrib idx).normal.x ∧
        attrib.normals[(3 * idx.normal_index).toNat + 1]? =
          some (vertexOf attrib idx).normal.y ∧
        attrib.normals[(3 * idx.normal_index).toNat + 2]? =
          some (vertexOf attrib idx).normal.z) ∧
      (if attrib.texcoords.length > 0 then
          attrib.texcoords[(2 * idx.texcoord_index).toNat]? = some (vertexOf attrib idx).uv.x ∧
          attrib.texcoords[(2 * idx.texcoord_index).toNat + 1]? =
            some (vertexOf attrib idx).uv.y
        else (vertexOf attrib idx).uv = 0) ∧
      (if attrib.colors.length > 0 then
          attrib.colors[(3 * idx.vertex_index).toNat]? = some (vertexOf attrib idx).color.x ∧
          attrib.colors[(3 * idx.vertex_index).toNat + 1]? =
            some (vertexOf attrib idx).color.y ∧
          attrib.colors[(3 * idx.vertex_index).toNat + 2]? =
            some (vertexOf attrib idx).color.z
        else (vertexOf attrib idx).color = 0) := by
    intro idx hidx
    obtain ⟨hp, hn, hu, hc⟩ :=
      (assembleVertex_eq_some_iff attrib idx _).1 (assembleVertex_eq_vertexOf attrib idx hidx)
    refine ⟨((make_vec3_eq_some_iff _ _ _).1 ((readVec3_eq_some_iff _ _ _).1 hp).2).2,
      ((make_vec3_eq_some_iff _ _ _).1 ((readVec3_eq_some_iff _ _ _).1 hn).2).2, ?_, ?_⟩
    · split_ifs at hu ⊢ with h
      · exact ((make_vec2_eq_some_iff _ _ _).1 ((readVec2_eq_some_iff _ _ _).1 hu).2).2
      · exact hu
    · split_ifs at hc ⊢ with h
      · exact ((make_vec3_eq_some_iff _ _ _).1 ((readVec3_eq_some_iff _ _ _).1 hc).2).2
      · exact hc
  have hocc : ∀ idx ∈ occurrences shapes, IndexReadable attrib idx := by
    intro idx hidx
    simp only [occurrences, List.mem_flatten, List.mem_map] at hidx
    obtain ⟨l, ⟨s, hs, rfl⟩, hl⟩ := hidx
    exact (hmesh s hs).2.2 idx hl
  refine ⟨⟨_, _, assemble_eq attrib shapes hmesh, by simp, ?_⟩, ?_⟩
  · intro j idx hj
    refine ⟨vertexOf attrib idx, by simp [hj], ?_⟩
    exact hfacts idx (hocc idx (List.getElem?_mem hj))
  · intro s hs hfv htex hcol
    subst hs
    have hs := hmesh s (List.mem_singleton_self s)
    obtain ⟨hlen, -, hin⟩ := hs
    simp only [faceVertexCount, hfv, List.sum_cons, List.sum_nil, Nat.add_zero] at hlen
    have hoccs : occurrences [s] = [s.mesh.indices[0], s.mesh.indices[1], s.mesh.indices[2]] := by
      simp only [occurrences, shapeOccurrences, faceVertexCount, hfv, List.map_cons,
        List.map_nil, List.flatten_cons, List.flatten_nil, List.append_nil, List.sum_cons,
        List.sum_nil, Nat.add_zero]
      apply List.ext_getElem
      · simp; omega
      · intro i h1 h2
        simp only [List.length_cons, List.length_nil] at h2
        match i, h2 with
        | 0, _ => simp
        | 1, _ => simp
        | 2, _ => simp
    have hz : ∀ idx, IndexReadable attrib idx →
        (vertexOf attrib idx).uv = 0 ∧ (vertexOf attrib idx).color = 0 := by
      intro idx hidx
      have := hfacts idx hidx
      simp only [htex, hcol, List.length_nil, gt_iff_lt, Nat.lt_irrefl, if_false] at this
      exact ⟨this.2.2.1, this.2.2.2⟩
    have h0 : IndexReadable attrib s.mesh.indices[0] := hocc _ (by rw [hoccs]; simp)
    have h1 : IndexReadable attrib s.mesh.indices[1] := hocc _ (by rw [hoccs]; simp)
    have h2 : IndexReadable attrib s.mesh.indices[2] := hocc _ (by rw [hoccs]; simp)
    refine ⟨vertexOf attrib s.mesh.indices[0], vertexOf attrib s.mesh.indices[1],
      vertexOf attrib s.mesh.indices[2], ?_, hz _ h0, hz _ h1, hz _ h2⟩
    rw [assemble_eq attrib [s] hmesh, hoccs]
    simp [totalFaceVertices, faceVertexCount, hfv, List.range_succ]

theorem assemble_vertex_of_occurrence_witness :
    MeshReadable triangleAttrib triangleShapes ∧
    assemble triangleAttrib triangleShapes =
      some ([⟨⟨0, 0, 0⟩, ⟨0, 0, 1⟩, ⟨0, 0⟩, ⟨0, 0, 0⟩⟩, ⟨⟨1, 0, 0⟩, ⟨0, 0, 2⟩, ⟨0, 0⟩, ⟨0, 0, 0⟩⟩,
        ⟨⟨0, 1, 0⟩, ⟨0, 0, 3⟩, ⟨0, 0⟩, ⟨0, 0, 0⟩⟩], [0, 1, 2]) ∧
    ∃ v0 v1 v2, assemble triangleAttrib triangleShapes = some ([v0, v1, v2], [0, 1, 2]) ∧
      (v0.uv = 0 ∧ v0.color = 0) ∧ (v1.uv = 0 ∧ v1.color = 0) ∧ (v2.uv = 0 ∧ v2.color = 0) :=
  ⟨by decide, by decide,
    (assemble_vertex_of_occurrence triangleAttrib triangleShapes (by decide)).2 _ rfl rfl rfl rfl⟩

/-- C10 (counterexample): 2147483652 position floats and a face-vertex with
`vertex_index = 715827883` satisfy the stated precondition
(`3 * 715827883 + 2 = 2147483651 < 2147483652`), but the `int` product
`3 * 715827883 = 2147483649` exceeds `INT_MAX`, so the index that line 36 forms
is not the in-bounds one: the loop's behaviour is undefined. -/
theorem assemble_int_overflow_counterexample :
    MeshInRange hugeAttrib hugeShapes ∧ intMul 3 715827883 = none ∧
    assemble hugeAttrib hugeShapes = none := by
  refine ⟨?_, by decide, by decide⟩
  intro s hs
  have hs1 : s = ⟨"p", ⟨[⟨715827883, 0, -1⟩], [1], [-1]⟩⟩ := List.mem_singleton.1 hs
  subst hs1
  refine ⟨by decide, by decide, ?_⟩
  intro idx hidx
  have hidx1 : idx = ⟨715827883, 0, -1⟩ := List.mem_singleton.1 hidx
  subst hidx1
  refine ⟨⟨by decide, ?_⟩, ⟨by decide, by decide⟩, ?_, ?_⟩
  · show (3 : Int) * 715827883 + 2 < ((List.replicate 2147483652 (0 : Int)).length : Int)
    rw [List.length_replicate]
    decide
  · intro h
    exact absurd h (by decide)
  · intro h
    exact absurd h (by decide)

/-- C10 (amended): when every shape has at least as many index entries as the
sum of its face-vertex counts and one material id per face, and every
face-vertex has `0 ≤ vi`, `3 * vi + 2 < |positions|`, `0 ≤ ni`,
`3 * ni + 2 < |normals|`, `0 ≤ ti` and `2 * ti + 1 < |texcoords|` if texcoords
are present, and `3 * vi + 2 < |colors|` if colors are present, and the
products `3 * vi`, `3 * ni` and (if texcoords are present) `2 * ti` do not
exceed `INT_MAX = 2 ^ 31 - 1`, then no vector access of the assembly loop is
out of bounds and no index product overflows. -/
theorem assemble_reads_in_bounds {F : Type} [Zero F] (attrib : attrib_t F)
    (shapes : List shape_t)
    (h : ∀ s ∈ shapes,
      s.mesh.num_face_vertices.sum ≤ s.mesh.indices.length ∧
      s.mesh.num_face_vertices.length ≤ s.mesh.material_ids.length ∧
      ∀ idx ∈ s.mesh.indices.take s.mesh.num_face_vertices.sum,
        (0 ≤ idx.vertex_index ∧ 3 * idx.vertex_index + 2 < attrib.vertices.length ∧
          3 * idx.vertex_index < 2 ^ 31) ∧
        (0 ≤ idx.normal_index ∧ 3 * idx.normal_index + 2 < attrib.normals.length ∧
          3 * idx.normal_index < 2 ^ 31) ∧
        (attrib.texcoords.length > 0 →
          0 ≤ idx.texcoord_index ∧ 2 * idx.texcoord_index + 1 < attrib.texcoords.length ∧
          2 * idx.texcoord_index < 2 ^ 31) ∧
        (attrib.colors.length > 0 → 3 * idx.vertex_index + 2 < attrib.colors.length)) :
    (assemble attrib shapes).isSome = true := by
  have hmesh : MeshReadable attrib shapes := by
    intro s hs
    obtain ⟨h1, h2, h3⟩ := h s hs
    refine ⟨h1, h2, ?_⟩
    intro idx hidx
    obtain ⟨⟨hv0, hv2, hvi⟩, ⟨hn0, hn2, hni⟩, ht, hc⟩ := h3 idx hidx
    exact ⟨⟨⟨hv0, hv2⟩, ⟨hn0, hn2⟩, fun htc => ⟨(ht htc).1, (ht htc).2.1⟩, hc⟩, hvi, hni,
      fun htc => (ht htc).2.2⟩
  rw [assemble_eq attrib shapes hmesh]
  rfl

theorem assemble_reads_in_bounds_witness :
    MeshReadable twoShapeAttrib twoShapeMesh ∧
    (assemble twoShapeAttrib twoShapeMesh).isSome = true :=
  ⟨by decide, assemble_reads_in_bounds twoShapeAttrib twoShapeMesh (by decide)⟩

/-! ## Lemmas on the upload -/

theorem length_vertexData {F : Type} (L : HostLayout F) (vertices : List (Vertex F)) :
    (L.vertexData vertices).length = vertices.length * L.sizeofVertex := by
  induction vertices with
  | nil => simp [HostLayout.vertexData]
  | cons v vs ih =>
    simp only [HostLayout.vertexData, List.map_cons, List.flatten_cons, List.length_append,
      L.vertexBytes_length, List.length_cons] at ih ⊢
    rw [ih, Nat.add_mul, Nat.one_mul, Nat.add_comm]

theorem length_indexData {F : Type} (L : HostLayout F) (indices : List Nat) :
    (L.indexData indices).length = indices.length * 4 := by
  induction indices with
  | nil => simp [HostLayout.indexData]
  | cons v vs ih =>
    simp only [HostLayout.indexData, List.map_cons, List.flatten_cons, List.length_append,
      L.uint32Bytes_length, List.length_cons] at ih ⊢
    rw [ih, Nat.add_mul, Nat.one_mul, Nat.add_comm]

theorem take_append_replicate {α : Type} (l : List α) (n : Nat) (a : α) (h : l.length = n) :
    (l ++ List.replicate n a).take n = l := by
  subst h
  simp

theorem take_vertexData {F : Type} (L : HostLayout F) (vertices : List (Vertex F)) :
    (L.vertexData vertices).take (vertices.length * L.sizeofVertex) = L.vertexData vertices :=
  List.take_of_length_le (by rw [length_vertexData])

theorem take_indexData {F : Type} (L : HostLayout F) (indices : List Nat) :
    (L.indexData indices).take (indices.length * 4) = L.indexData indices :=
  List.take_of_length_le (by rw [length_indexData])

theorem deviceLocal_not_hostVisible :
    VK_MEMORY_PROPERTY_DEVICE_LOCAL_BIT &&& VK_MEMORY_PROPERTY_HOST_VISIBLE_BIT = 0 := by
  decide

theorem hostVisible_coherent_hostVisible :
    (VK_MEMORY_PROPERTY_HOST_VISIBLE_BIT ||| VK_MEMORY_PROPERTY_HOST_COHERENT_BIT) &&&
      VK_MEMORY_PROPERTY_HOST_VISIBLE_BIT ≠ 0 := by
  decide

theorem upload_spec {F : Type} (L : HostLayout F) (self : Model) (vertices : List (Vertex F))
    (indices : List Nat) (device : VulkanDevice) (queue commandPool : Handle)
    (hdev : device.completes = true) :
    ∃ r, Model.upload L self vertices indices device queue commandPool = .ok r ∧
      r.1 = { self with
        indexCount := indexCountOf indices
        vertexBuffer := ⟨device.logicalDevice, device.nextHandle + 4, device.nextHandle + 5, none⟩
        indexBuffer :=
          ⟨device.logicalDevice, device.nextHandle + 6, device.nextHandle + 7, none⟩ } ∧
      r.2.calls = device.calls ++ uploadCalls device.logicalDevice queue commandPool
        device.nextHandle (vertices.length * L.sizeofVertex) (indices.length * 4)
        (L.vertexData vertices) (L.indexData indices) ∧
      r.2.buffers (device.nextHandle + 4) =
        some { usage := VK_BUFFER_USAGE_VERTEX_BUFFER_BIT ||| VK_BUFFER_USAGE_TRANSFER_DST_BIT,
               memoryProperties := VK_MEMORY_PROPERTY_DEVICE_LOCAL_BIT,
               size := vertices.length * L.sizeofVertex, memory := device.nextHandle + 5,
               data := L.vertexData vertices } ∧
      r.2.buffers (device.nextHandle + 6) =
        some { usage := VK_BUFFER_USAGE_INDEX_BUFFER_BIT ||| VK_BUFFER_USAGE_TRANSFER_DST_BIT,
               memoryProperties := VK_MEMORY_PROPERTY_DEVICE_LOCAL_BIT,
               size := indices.length * 4, memory := device.nextHandle + 7,
               data := L.indexData indices } ∧
      r.2.buffers device.nextHandle = none ∧
      r.2.buffers (device.nextHandle + 2) = none ∧
      r.2.logicalDevice = device.logicalDevice := by
  simp [Model.upload, VulkanDevice.createBuffer, VulkanDevice.vkAllocateCommandBuffers,
    VulkanDevice.vkBeginCommandBuffer, VulkanDevice.record, VulkanDevice.vkEndCommandBuffer,
    VulkanDevice.vkCreateFence, VulkanDevice.vkQueueSubmit, VulkanDevice.vkWaitForFences,
    VulkanDevice.vkDestroyFence, VulkanDevice.vkDestroyBuffer, VulkanDevice.vkFreeMemory,
    VulkanDevice.log, VK_CHECK_RESULT, hdev, VulkanDevice.execute, VulkanDevice.copyRegion,
    take_append_replicate, length_vertexData, length_indexData, Function.update_apply,
    Nat.add_assoc, take_vertexData, take_indexData, deviceLocal_not_hostVisible, uploadCalls,
    bind, Except.bind, pure, Except.pure]

/-- When the device never completes the submitted work the fence does not
signal, the wait returns `VK_TIMEOUT` and `VK_CHECK_RESULT` makes it fatal. -/
theorem upload_timeout {F : Type} (L : HostLayout F) (self : Model) (vertices : List (Vertex F))
    (indices : List Nat) (device : VulkanDevice) (queue commandPool : Handle)
    (hdev : device.completes = false) :
    Model.upload L self vertices indices device queue commandPool =
      .error (.vkError VK_TIMEOUT) := by
  simp [Model.upload, VulkanDevice.createBuffer, VulkanDevice.vkAllocateCommandBuffers,
    VulkanDevice.vkBeginCommandBuffer, VulkanDevice.record, VulkanDevice.vkEndCommandBuffer,
    VulkanDevice.vkCreateFence, VulkanDevice.vkQueueSubmit, VulkanDevice.vkWaitForFences,
    VulkanDevice.log, VK_CHECK_RESULT, hdev, Function.update_apply, bind, Except.bind, pure,
    Except.pure, VK_TIMEOUT, VK_SUCCESS]

/-! ## Claims on `Model` -/

/-- C1 (counterexample): an OBJ file without normals parses without error and
every face-vertex gets `normal_index = -1`; line 37 then reads `normals[-3]`.
The mesh has three face-vertices, yet the loop yields no vertex or index
sequence (its behaviour is undefined) and the constructor yields no `Model`. -/
theorem assemble_without_normals_counterexample :
    noNormalsLoad.err = "" ∧ totalFaceVertices noNormalsLoad.shapes = 3 ∧
    readVec3 noNormalsLoad.attrib.normals (-1) = none ∧
    assemble noNormalsLoad.attrib noNormalsLoad.shapes = none ∧
    (Model.ctor intLayout zeroModel "ship" noNormalsLoad device0 2 3).toOption.map
      (fun r => r.1.indexCount) = none := by
  decide

/-- C1 (amended): for a parsed mesh on which the loop is defined (every shape
has enough index entries and material ids, every face-vertex has its position
and normal index, and its texcoord index when texcoords are present,
non-negative and inside the array with the products within `int`) and whose
faces have `k_i` face-vertices with `Σ k_i < 2 ^ 32`, the assembly loop returns
vertex and index sequences of length `Σ k_i`, `indices[j] = j` at every
position `j` (shape boundaries included),
`static_cast<uint32_t>(indices.size())` is `Σ k_i`, and a constructor run that
gets through the upload leaves `indexCount = Σ k_i`. -/
theorem assemble_counts_and_indices {F : Type} [Zero F] (attrib : attrib_t F)
    (shapes : List shape_t) (hmesh : MeshReadable attrib shapes)
    (hlt : totalFaceVertices shapes < 2 ^ 32) :
    (∃ vertices indices, assemble attrib shapes = some (vertices, indices) ∧
      vertices.length = totalFaceVertices shapes ∧
      indices.length = totalFaceVertices shapes ∧
      indexCountOf indices = totalFaceVertices shapes ∧
      ∀ j : Nat, j < totalFaceVertices shapes → indices[j]? = some j) ∧
    (∀ (L : HostLayout F) (self : Model) (id : String) (ret : Bool) (device : VulkanDevice)
      (queue commandPool : Handle), device.completes = true →
      ∃ m d, Model.ctor L self id ⟨ret, "", attrib, shapes⟩ device queue commandPool = .ok (m, d) ∧
        m.indexCount = totalFaceVertices shapes) := by
  have hcount : indexCountOf ((List.range (totalFaceVertices shapes)).map (fun i => i % 2 ^ 32)) =
      totalFaceVertices shapes := by
    simp only [indexCountOf, List.length_map, List.length_range]
    exact Nat.mod_eq_of_lt hlt
  refine ⟨⟨_, _, assemble_eq attrib shapes hmesh, ?_, ?_, hcount, ?_⟩, ?_⟩
  · simp [length_occurrences attrib shapes hmesh]
  · simp
  · intro j hj
    rw [map_mod_range _ (Nat.le_of_lt hlt)]
    simp [hj]
  · intro L self id ret device queue commandPool hdev
    obtain ⟨r, hr, hm, -⟩ :=
      upload_spec L { self with id := id, device := device.logicalDevice, queue := queue }
        ((occurrences shapes).map (vertexOf attrib))
        ((List.range (totalFaceVertices shapes)).map (fun i => i % 2 ^ 32)) device queue
        commandPool hdev
    refine ⟨r.1, r.2, ?_, ?_⟩
    · simp only [Model.ctor, assemble_eq attrib shapes hmesh, ne_eq, not_true_eq_false, if_false]
      exact hr
    · rw [hm]
      exact hcount

theorem assemble_counts_and_indices_witness :
    (MeshReadable twoShapeAttrib twoShapeMesh ∧ totalFaceVertices twoShapeMesh < 2 ^ 32) ∧
    (assemble twoShapeAttrib twoShapeMesh).map (fun r => r.2) = some [0, 1, 2, 3, 4, 5, 6] ∧
    ∃ vertices indices, assemble twoShapeAttrib twoShapeMesh = some (vertices, indices) ∧
      vertices.length = totalFaceVertices twoShapeMesh ∧
      indices.length = totalFaceVertices twoShapeMesh ∧
      indexCountOf indices = totalFaceVertices twoShapeMesh ∧
      ∀ j : Nat, j < totalFaceVertices twoShapeMesh → indices[j]? = some j :=
  ⟨⟨by decide, by decide⟩, by decide,
    (assemble_counts_and_indices twoShapeAttrib twoShapeMesh (by decide) (by decide)).1⟩

/-- C6 (counterexample): a `Model` with `indexCount = 0` still records three
commands when drawn. -/
theorem draw_zero_indexCount_counterexample :
    zeroModel.indexCount = 0 ∧ device0.recorded 9 = [] ∧
    (zeroModel.draw 9 device0).recorded 9 =
      [.vkCmdBindVertexBuffers 9 0 1 [0] [0], .vkCmdBindIndexBuffer 9 0 0 VK_INDEX_TYPE_UINT32,
        .vkCmdDrawIndexed 9 0 1 0 0 0] ∧
    (zeroModel.draw 9 device0).recorded 9 ≠ device0.recorded 9 := by
  decide

/-- C6 (amended): `Model::draw` has no guard on `indexCount`; for every `Model`
it records exactly three commands: bind the vertex buffer at binding 0 with
offset 0, bind the index buffer at offset 0 as 32-bit indices, and one indexed
draw of `indexCount` indices, one instance, no offsets. Buffer storage is not
touched. -/
theorem draw_records_three_commands (self : Model) (commandBuffer : Handle)
    (device : VulkanDevice) :
    (self.draw commandBuffer device).recorded commandBuffer =
      device.recorded commandBuffer ++
        [.vkCmdBindVertexBuffers commandBuffer 0 1 [self.vertexBuffer.buffer] [0],
          .vkCmdBindIndexBuffer commandBuffer self.indexBuffer.buffer 0 VK_INDEX_TYPE_UINT32,
          .vkCmdDrawIndexed commandBuffer self.indexCount 1 0 0 0] ∧
    (self.draw commandBuffer device).calls =
      device.calls ++
        [.vkCmdBindVertexBuffers commandBuffer 0 1 [self.vertexBuffer.buffer] [0],
          .vkCmdBindIndexBuffer commandBuffer self.indexBuffer.buffer 0 VK_INDEX_TYPE_UINT32,
          .vkCmdDrawIndexed commandBuffer self.indexCount 1 0 0 0] ∧
    (self.draw commandBuffer device).buffers = device.buffers := by
  simp [Model.draw, VulkanDevice.record]

/-- C9: after a successful load (no parser error, the assembly reads in bounds,
the device completes the submitted work) the device-local vertex buffer holds
exactly the host vertex bytes and the device-local index buffer exactly the
host index bytes. Both buffers have the size of their host data
(`vertices.size() * sizeof(Vertex)`, `indices.size() * 4`, which is
`indexCount * 4` below `2 ^ 32` indices); each staging buffer is created from
the whole host data and each recorded copy has source offset 0, destination
offset 0 and that full size. -/
theorem ctor_device_buffers_hold_host_data {F : Type} [Zero F] (L : HostLayout F)
    (self : Model) (id : String) (loaded : LoadObjResult F) (device : VulkanDevice)
    (queue commandPool : Handle) (vertices : List (Vertex F)) (indices : List Nat)
    (herr : loaded.err = "")
    (hasm : assemble loaded.attrib loaded.shapes = some (vertices, indices))
    (hdev : device.completes = true) :
    ∃ m d, Model.ctor L self id loaded device queue commandPool = .ok (m, d) ∧
      (d.buffers m.vertexBuffer.buffer).map (fun o => o.data) = some (L.vertexData vertices) ∧
      (d.buffers m.indexBuffer.buffer).map (fun o => o.data) = some (L.indexData indices) ∧
      (d.buffers m.vertexBuffer.buffer).map (fun o => o.size) =
        some (vertices.length * L.sizeofVertex) ∧
      (d.buffers m.indexBuffer.buffer).map (fun o => o.size) = some (indices.length * 4) ∧
      (L.vertexData vertices).length = vertices.length * L.sizeofVertex ∧
      (L.indexData indices).length = indices.length * 4 ∧
      (indices.length < 2 ^ 32 → m.indexCount * 4 = indices.length * 4) ∧
      d.calls = device.calls ++
        uploadCalls device.logicalDevice queue commandPool device.nextHandle
          (vertices.length * L.sizeofVertex) (indices.length * 4) (L.vertexData vertices)
          (L.indexData indices) := by
  obtain ⟨r, hr, hm, hcalls, hvb, hib, -, -, -⟩ :=
    upload_spec L { self with id := id, device := device.logicalDevice, queue := queue }
      vertices indices device queue commandPool hdev
  refine ⟨r.1, r.2, ?_, ?_, ?_, ?_, ?_, length_vertexData L vertices, length_indexData L indices,
    ?_, hcalls⟩
  · simp [Model.ctor, herr, hasm, hr]
  · rw [hm]; simp [hvb]
  · rw [hm]; simp [hib]
  · rw [hm]; simp [hvb]
  · rw [hm]; simp [hib]
  · intro hlt
    rw [hm]
    simp only [indexCountOf]
    rw [Nat.mod_eq_of_lt hlt]

theorem ctor_device_buffers_hold_host_data_witness :
    (triangleLoad.err = "" ∧
      assemble triangleLoad.attrib triangleLoad.shapes =
        some ([⟨⟨0, 0, 0⟩, ⟨0, 0, 1⟩, ⟨0, 0⟩, ⟨0, 0, 0⟩⟩, ⟨⟨1, 0, 0⟩, ⟨0, 0, 2⟩, ⟨0, 0⟩, ⟨0, 0, 0⟩⟩,
          ⟨⟨0, 1, 0⟩, ⟨0, 0, 3⟩, ⟨0, 0⟩, ⟨0, 0, 0⟩⟩], [0, 1, 2]) ∧
      device0.completes = true) ∧
    ∃ m d, Model.ctor intLayout zeroModel "ship" triangleLoad device0 2 3 = .ok (m, d) ∧
      (d.buffers m.vertexBuffer.buffer).map (fun o => o.data) =
        some (intLayout.vertexData [⟨⟨0, 0, 0⟩, ⟨0, 0, 1⟩, ⟨0, 0⟩, ⟨0, 0, 0⟩⟩,
          ⟨⟨1, 0, 0⟩, ⟨0, 0, 2⟩, ⟨0, 0⟩, ⟨0, 0, 0⟩⟩, ⟨⟨0, 1, 0⟩, ⟨0, 0, 3⟩, ⟨0, 0⟩, ⟨0, 0, 0⟩⟩]) ∧
      (d.buffers m.indexBuffer.buffer).map (fun o => o.data) =
        some (intLayout.indexData [0, 1, 2]) :=
  ⟨⟨by decide, by decide, by decide⟩,
    let ⟨m, d, h1, h2, h3, _⟩ := ctor_device_buffers_hold_host_data intLayout zeroModel "ship"
      triangleLoad device0 2 3 _ _ (by decide) (by decide) (by decide)
    ⟨m, d, h1, h2, h3⟩⟩

/-- C7 (counterexample): the parse fails, the constructor makes no device call
(no buffer is created), and destroying the `Model` still issues two
destroy-buffer and two free-memory calls. -/
theorem dtor_after_parse_error_counterexample :
    failedLoad.err ≠ "" ∧
    (Model.ctor intLayout zeroModel "ship" failedLoad device0 2 3).toOption.map
      (fun r => (r.2.calls, (r.1.dtor r.2).calls)) =
      some ([], [.vkDestroyBuffer 1 0, .vkFreeMemory 1 0, .vkDestroyBuffer 1 0,
        .vkFreeMemory 1 0]) ∧
    (Model.ctor intLayout zeroModel "ship" failedLoad device0 2 3).toOption.map
      (fun r => (r.1.dtor r.2).calls) ≠ some [] := by
  decide

/-- C7 (amended): `Model::~Model` has no guard; for every `Model` it issues
exactly one destroy-buffer and one free-memory call for `vertexBuffer` and for
`indexBuffer`. After a successful load, over construction and destruction
together, every buffer and every memory that a `createBuffer` call returned is
destroyed, respectively freed, exactly once, and nothing else is destroyed or
freed. -/
theorem dtor_releases_created_buffers_once {F : Type} [Zero F] (L : HostLayout F)
    (self : Model) (id : String) (loaded : LoadObjResult F) (device : VulkanDevice)
    (queue commandPool : Handle) (vertices : List (Vertex F)) (indices : List Nat)
    (herr : loaded.err = "")
    (hasm : assemble loaded.attrib loaded.shapes = some (vertices, indices))
    (hdev : device.completes = true) :
    (∀ (m : Model) (d : VulkanDevice), (m.dtor d).calls = d.calls ++
      [.vkDestroyBuffer m.device m.vertexBuffer.buffer,
        .vkFreeMemory m.device m.vertexBuffer.memory,
        .vkDestroyBuffer m.device m.indexBuffer.buffer,
        .vkFreeMemory m.device m.indexBuffer.memory]) ∧
    ∃ m d created, Model.ctor L self id loaded device queue commandPool = .ok (m, d) ∧
      (m.dtor d).calls = device.calls ++ created ∧
      (∀ usage props size data b mem, Call.createBuffer usage props size data b mem ∈ created →
        created.count (.vkDestroyBuffer device.logicalDevice b) = 1 ∧
        created.count (.vkFreeMemory device.logicalDevice mem) = 1) ∧
      (∀ dev b, Call.vkDestroyBuffer dev b ∈ created →
        ∃ usage props size data mem, Call.createBuffer usage props size data b mem ∈ created) ∧
      (∀ dev mem, Call.vkFreeMemory dev mem ∈ created →
        ∃ usage props size data b, Call.createBuffer usage props size data b mem ∈ created) := by
  have hdtor : ∀ (m : Model) (d : VulkanDevice), (m.dtor d).calls = d.calls ++
      [.vkDestroyBuffer m.device m.vertexBuffer.buffer,
        .vkFreeMemory m.device m.vertexBuffer.memory,
        .vkDestroyBuffer m.device m.indexBuffer.buffer,
        .vkFreeMemory m.device m.indexBuffer.memory] := by
    intro m d
    simp [Model.dtor, VulkanDevice.vkDestroyBuffer, VulkanDevice.vkFreeMemory, VulkanDevice.log]
  refine ⟨hdtor, ?_⟩
  obtain ⟨r, hr, hm, hcalls, -, -, -, -, -⟩ :=
    upload_spec L { self with id := id, device := device.logicalDevice, queue := queue }
      vertices indices device queue commandPool hdev
  refine ⟨r.1, r.2,
    uploadCalls device.logicalDevice queue commandPool device.nextHandle
        (vertices.length * L.sizeofVertex) (indices.length * 4) (L.vertexData vertices)
        (L.indexData indices) ++
      [.vkDestroyBuffer device.logicalDevice (device.nextHandle + 4),
        .vkFreeMemory device.logicalDevice (device.nextHandle + 5),
        .vkDestroyBuffer device.logicalDevice (device.nextHandle + 6),
        .vkFreeMemory device.logicalDevice (device.nextHandle + 7)], ?_, ?_, ?_, ?_, ?_⟩
  · simp [Model.ctor, herr, hasm, hr]
  · rw [hdtor, hcalls, hm, List.append_assoc]
  · intro usage props size data b mem hmem
    simp [uploadCalls] at hmem
    rcases hmem with h | h | h | h <;> obtain ⟨-, -, -, -, rfl, rfl⟩ := h <;>
      simp [uploadCalls, List.count_cons]
  · intro dev b hmem
    simp [uploadCalls] at hmem
    rcases hmem with h | h | h | h <;> obtain ⟨-, rfl⟩ := h <;> simp [uploadCalls]
  · intro dev mem hmem
    simp [uploadCalls] at hmem
    rcases hmem with h | h | h | h <;> obtain ⟨-, rfl⟩ := h <;> simp [uploadCalls]

theorem dtor_releases_created_buffers_once_witness :
    (triangleLoad.err = "" ∧ device0.completes = true) ∧
    ∃ m d created, Model.ctor intLayout zeroModel "ship" triangleLoad device0 2 3 = .ok (m, d) ∧
      (m.dtor d).calls = device0.calls ++ created ∧
      (∀ usage props size data b mem, Call.createBuffer usage props size data b mem ∈ created →
        created.count (.vkDestroyBuffer device0.logicalDevice b) = 1 ∧
        created.count (.vkFreeMemory device0.logicalDevice mem) = 1) ∧
      (∀ dev b, Call.vkDestroyBuffer dev b ∈ created →
        ∃ usage props size data mem, Call.createBuffer usage props size data b mem ∈ created) ∧
      (∀ dev mem, Call.vkFreeMemory dev mem ∈ created →
        ∃ usage props size data b, Call.createBuffer usage props size data b mem ∈ created) :=
  ⟨⟨by decide, by decide⟩,
    (dtor_releases_created_buffers_once intLayout zeroModel "ship" triangleLoad device0 2 3
      [⟨⟨0, 0, 0⟩, ⟨0, 0, 1⟩, ⟨0, 0⟩, ⟨0, 0, 0⟩⟩, ⟨⟨1, 0, 0⟩, ⟨0, 0, 2⟩, ⟨0, 0⟩, ⟨0, 0, 0⟩⟩,
        ⟨⟨0, 1, 0⟩, ⟨0, 0, 3⟩, ⟨0, 0⟩, ⟨0, 0, 0⟩⟩] [0, 1, 2] (by decide) (by decide)
      (by decide)).2⟩

/-! ## Lemmas on `Projectile` -/

theorem allocateResources_eq {F : Type} (L : HostLayout F) (self : Projectile F)
    (device : VulkanDevice) (descriptorPool : Handle) :
    Projectile.allocateResources L self device descriptorPool =
      .ok ({ self with
              ubo := ⟨device.logicalDevice, device.nextHandle, device.nextHandle + 1,
                some device.nextHandle⟩
              descriptorSetLayout := device.nextHandle + 2
              descriptorSet := device.nextHandle + 3 },
            { device with
              nextHandle := device.nextHandle + 4
              buffers := Function.update device.buffers device.nextHandle
                (some { usage := VK_BUFFER_USAGE_UNIFORM_BUFFER_BIT,
                        memoryProperties :=
                          VK_MEMORY_PROPERTY_HOST_VISIBLE_BIT |||
                            VK_MEMORY_PROPERTY_HOST_COHERENT_BIT,
                        size := L.sizeofMatrices, memory := device.nextHandle + 1,
                        data := L.matricesBytes self.uniformData })
              calls := device.calls ++ allocateCalls device.logicalDevice descriptorPool
                device.nextHandle L.sizeofMatrices (L.matricesBytes self.uniformData) }) := by
  simp [Projectile.allocateResources, VulkanDevice.createBuffer,
    VulkanDevice.vkCreateDescriptorSetLayout, VulkanDevice.vkAllocateDescriptorSets,
    VulkanDevice.vkUpdateDescriptorSets, VulkanDevice.log, VK_CHECK_RESULT, bind, Except.bind,
    pure, Except.pure, hostVisible_coherent_hostVisible, Nat.add_assoc, allocateCalls,
    take_append_replicate, L.matricesBytes_length]

/-! ## Claims on `Projectile` -/

/-- C8 (counterexample): an entity on which `allocateResources` was never
called is destroyed; the destructor still issues a destroy-layout call and a
buffer release on the device. -/
theorem projectile_dtor_unallocated_counterexample :
    device0.calls = [] ∧
    (freshProjectile.dtor device0).calls =
      [.vkDestroyDescriptorSetLayout VK_NULL_HANDLE VK_NULL_HANDLE, .bufferDestroy nullBuffer] ∧
    (freshProjectile.dtor device0).calls ≠ device0.calls := by
  decide

/-- C8 (amended): `Projectile::~Projectile` has no guard; for every entity it
issues exactly one `vkDestroyDescriptorSetLayout` (on `ubo.device`, for the
entity's layout) followed by one `ubo.destroy()`, and no call on the referenced
`Model`. After `allocateResources`, over allocation and destruction together,
the layout and the uniform buffer created there are each released exactly
once and the `Model` reference is unchanged. -/
theorem projectile_dtor_releases_layout_and_ubo {F : Type} (L : HostLayout F)
    (self : Projectile F) (device : VulkanDevice) (descriptorPool : Handle) :
    (∀ (p : Projectile F) (d : VulkanDevice), (p.dtor d).calls = d.calls ++
      [.vkDestroyDescriptorSetLayout p.ubo.device p.descriptorSetLayout, .bufferDestroy p.ubo]) ∧
    ∃ p d, Projectile.allocateResources L self device descriptorPool = .ok (p, d) ∧
      p.model = self.model ∧
      p.ubo = ⟨device.logicalDevice, device.nextHandle, device.nextHandle + 1,
        some device.nextHandle⟩ ∧
      p.descriptorSetLayout = device.nextHandle + 2 ∧
      (p.dtor d).calls = device.calls ++
        (allocateCalls device.logicalDevice descriptorPool device.nextHandle L.sizeofMatrices
            (L.matricesBytes self.uniformData) ++
          [.vkDestroyDescriptorSetLayout device.logicalDevice (device.nextHandle + 2),
            .bufferDestroy ⟨device.logicalDevice, device.nextHandle, device.nextHandle + 1,
              some device.nextHandle⟩]) ∧
      (p.dtor d).buffers device.nextHandle = none := by
  refine ⟨?_, ?_⟩
  · intro p d
    simp [Projectile.dtor, VulkanDevice.vkDestroyDescriptorSetLayout, VulkanDevice.bufferDestroy,
      VulkanDevice.log]
  · refine ⟨_, _, allocateResources_eq L self device descriptorPool, rfl, rfl, rfl, ?_, ?_⟩
    · simp [Projectile.dtor, VulkanDevice.vkDestroyDescriptorSetLayout,
        VulkanDevice.bufferDestroy, VulkanDevice.log]
    · simp [Projectile.dtor, VulkanDevice.vkDestroyDescriptorSetLayout,
        VulkanDevice.bufferDestroy, VulkanDevice.log]

theorem update_eq {F : Type} [Zero F] [One F] [Add F] [Mul F] (L : HostLayout F)
    (self : Projectile F) (deltatime : F) (device : VulkanDevice) (b : Handle)
    (obj : BufferObject) (hmap : self.ubo.mapped = some b) (hbuf : device.buffers b = some obj)
    (hsize : L.sizeofMatrices ≤ obj.data.length) :
    Projectile.update L self deltatime device =
      some ({ self with
              position := self.position + self.direction * self.speed * deltatime
              uniformData :=
                ⟨translate (mat4.diag 1)
                  (self.position + self.direction * self.speed * deltatime)⟩
              updated := false },
            { device with
              buffers := Function.update device.buffers b
                (some { obj with
                  data :=
                    L.matricesBytes
                        ⟨translate (mat4.diag 1)
                          (self.position + self.direction * self.speed * deltatime)⟩ ++
                      obj.data.drop L.sizeofMatrices }) }) := by
  simp [Projectile.update, Projectile.updateUniformdata, memcpyToMapped, hmap, hbuf,
    L.matricesBytes_length, hsize]

theorem vec3_add_def {F : Type} [Add F] (a b : vec3 F) :
    a + b = ⟨a.x + b.x, a.y + b.y, a.z + b.z⟩ := rfl

theorem vec3_mul_def {F : Type} [Mul F] (a b : vec3 F) :
    a * b = ⟨a.x * b.x, a.y * b.y, a.z * b.z⟩ := rfl

theorem vec3_hmul_def {F : Type} [Mul F] (a : vec3 F) (s : F) :
    a * s = ⟨a.x * s, a.y * s, a.z * s⟩ := rfl

theorem vec4_add_def {F : Type} [Add F] (a b : vec4 F) :
    a + b = ⟨a.x + b.x, a.y + b.y, a.z + b.z, a.w + b.w⟩ := rfl

theorem vec4_hmul_def {F : Type} [Mul F] (a : vec4 F) (s : F) :
    a * s = ⟨a.x * s, a.y * s, a.z * s, a.w * s⟩ := rfl

/-- In exact arithmetic `glm::translate(glm::mat4(1), v)` is the identity with
`(v.x, v.y, v.z, 1)` as last column. -/
theorem translate_diag_one {F : Type} [Semiring F] (v : vec3 F) :
    translate (mat4.diag (1 : F)) v =
      ⟨⟨1, 0, 0, 0⟩, ⟨0, 1, 0, 0⟩, ⟨0, 0, 1, 0⟩, ⟨v.x, v.y, v.z, 1⟩⟩ := by
  simp [translate, mat4.diag, vec4_add_def, vec4_hmul_def]

/-- In exact arithmetic two successive position steps add up to one step over
the summed time. Float rounding does not satisfy the laws used here. -/
theorem position_step_add {F : Type} [CommSemiring F] (position direction speed : vec3 F)
    (a b : F) :
    position + direction * speed * a + direction * speed * b =
      position + direction * speed * (a + b) := by
  simp only [vec3_add_def, vec3_mul_def, vec3_hmul_def, vec3.mk.injEq]
  refine ⟨?_, ?_, ?_⟩ <;> ring

/-! ## Lemmas on binary32 -/

theorem bitLengthAux_le_iff (fuel : Nat) :
    ∀ n k : Nat, n ≤ fuel → (bitLengthAux fuel n ≤ k ↔ n < 2 ^ k) := by
  induction fuel with
  | zero =>
    intro n k hn
    have h0 : n = 0 := Nat.le_zero.1 hn
    subst h0
    simp [bitLengthAux]
  | succ fuel ih =>
    intro n k hn
    unfold bitLengthAux
    by_cases h0 : n = 0
    · subst h0
      simp
    · rw [if_neg h0]
      cases k with
      | zero =>
        simp only [Nat.add_one_ne_zero, Nat.le_zero_eq, pow_zero, Nat.lt_one_iff, h0]
      | succ k =>
        have hdiv : n / 2 ≤ fuel := by omega
        rw [Nat.add_le_add_iff_right, ih (n / 2) k hdiv, Nat.div_lt_iff_lt_mul (by decide),
          Nat.pow_succ]

theorem bitLength_le_iff (n k : Nat) : bitLength n ≤ k ↔ n < 2 ^ k :=
  bitLengthAux_le_iff n n k (Nat.le_refl n)

theorem bitLength_eq_of_bounds (n k : Nat) (hlo : 2 ^ k ≤ n) (hhi : n < 2 ^ (k + 1)) :
    bitLength n = k + 1 := by
  apply Nat.le_antisymm
  · exact (bitLength_le_iff n (k + 1)).2 hhi
  · by_contra hlt
    have hle : bitLength n ≤ k := by omega
    have := (bitLength_le_iff n k).1 hle
    omega

theorem lt_two_pow_bitLength (n : Nat) : n < 2 ^ bitLength n :=
  (bitLength_le_iff n (bitLength n)).1 (Nat.le_refl _)

theorem two_pow_pred_bitLength_le (n : Nat) (hn : 0 < n) : 2 ^ (bitLength n - 1) ≤ n := by
  by_contra hlt
  have hlt1 : n < 2 ^ (bitLength n - 1) := Nat.lt_of_not_le hlt
  have hle := (bitLength_le_iff n (bitLength n - 1)).2 hlt1
  have hpos : 0 < bitLength n := by
    by_contra h0
    have hz : bitLength n ≤ 0 := by omega
    have := (bitLength_le_iff n 0).1 hz
    omega
  omega

theorem bitLength_mul_two_pow (m k : Nat) (hm : 0 < m) :
    bitLength (m * 2 ^ k) = bitLength m + k := by
  have hpos : 0 < bitLength m := by
    by_contra h0
    have hz : bitLength m ≤ 0 := by omega
    have := (bitLength_le_iff m 0).1 hz
    omega
  have hlo := two_pow_pred_bitLength_le m hm
  have hhi := lt_two_pow_bitLength m
  have e1 : bitLength m + k = (bitLength m - 1 + k) + 1 := by omega
  rw [e1]
  apply bitLength_eq_of_bounds
  · rw [Nat.pow_add]
    exact Nat.mul_le_mul_right _ hlo
  · have e2 : bitLength m - 1 + k + 1 = bitLength m + k := by omega
    rw [e2, Nat.pow_add]
    exact Nat.mul_lt_mul_of_pos_right hhi (Nat.two_pow_pos _)

namespace Binary32

/-- Rounding the exact value of a number of the format, given with `k` extra
low zero bits, returns the number. -/
theorem round_scaled (s : Bool) (m : Nat) (e : Int) (k : Nat) (hm : 0 < m)
    (hnum : IsNumber (.finite s m e)) :
    round s (m * 2 ^ k) (e - k) = .finite s m e := by
  obtain ⟨hm24, hlo, hhi, hnorm⟩ := hnum
  have hne : m * 2 ^ k ≠ 0 := Nat.ne_of_gt (Nat.mul_pos hm (Nat.two_pow_pos _))
  have hbl : bitLength (m * 2 ^ k) = bitLength m + k := bitLength_mul_two_pow m k hm
  have htarget : max (e - (k : Int) + ((bitLength (m * 2 ^ k) : Nat) : Int) - 24) (-149) = e := by
    rw [hbl]
    rcases hnorm with h23 | he
    · have : bitLength m = 24 := bitLength_eq_of_bounds m 23 h23 hm24
      rw [this]
      push_cast
      omega
    · have hle : bitLength m ≤ 24 := (bitLength_le_iff m 24).2 hm24
      push_cast
      omega
  unfold round
  simp only [hne, if_false, htarget]
  by_cases hk : k = 0
  · subst hk
    have h1 : e ≤ e - ((0 : Nat) : Int) := by simp
    have h2 : ¬ (104 < e) := by omega
    simp [h1, h2]
  · have h1 : ¬ (e ≤ e - (k : Int)) := by omega
    have hshift : (e - (e - (k : Int))).toNat = k := by omega
    have h2 : ¬ (104 < e) := by omega
    have hq : m * 2 ^ k / 2 ^ k = m := Nat.mul_div_cancel _ (Nat.two_pow_pos _)
    have hr : m * 2 ^ k % 2 ^ k = 0 := Nat.mul_mod_left _ _
    have hpow : ¬ (2 ^ k < 2 * 0) := by simp
    have hpow2 : (2 : Nat) ^ k ≠ 0 := Nat.ne_of_gt (Nat.two_pow_pos _)
    have hm2 : m ≠ 2 ^ 24 := Nat.ne_of_lt hm24
    simp only [h1, if_false, hshift, hq, hr, Nat.mul_zero, Nat.not_lt_zero, decide_False,
      hpow2, Bool.false_and, Bool.or_self, Bool.false_eq_true, hm2, h2]

end Binary32

namespace Binary32

theorem Same.trans {a b c : Binary32} (h1 : Same a b) (h2 : Same b c) : Same a c := by
  rcases h1 with rfl | ⟨ha, hb⟩
  · exact h2
  · rcases h2 with rfl | ⟨_, hc⟩
    · exact Or.inr ⟨ha, hb⟩
    · exact Or.inr ⟨ha, hc⟩

theorem add_zeros (s t : Bool) (e f : Int) :
    (Binary32.finite s 0 e) + (Binary32.finite t 0 f) = .finite (s && t) 0 (-149) := by
  show Binary32.add _ _ = _
  simp [Binary32.add]

theorem add_zero_right_pos (s t : Bool) (m : Nat) (e : Int) (hm : 0 < m)
    (hnum : IsNumber (.finite s m e)) :
    (Binary32.finite s m e) + (Binary32.finite t 0 (-149)) = .finite s m e := by
  show Binary32.add _ _ = _
  have hlo : -149 ≤ e := hnum.2.1
  have hg : min e (-149) = -149 := min_eq_right hlo
  have hpos : 0 < m * 2 ^ (e - -149).toNat := Nat.mul_pos hm (Nat.two_pow_pos _)
  have hposz : (0 : Int) < ((m * 2 ^ (e - -149).toNat : Nat) : Int) := by exact_mod_cast hpos
  have he : (-149 : Int) = e - ((e - -149).toNat : Nat) := by omega
  simp only [Binary32.add, hg, Nat.zero_mul, Nat.cast_zero, Int.mul_zero, Int.add_zero]
  cases s
  · have hne : ¬ ((1 : Int) * ((m * 2 ^ (e - -149).toNat : Nat) : Int) = 0) := by omega
    have hlt : ¬ ((1 : Int) * ((m * 2 ^ (e - -149).toNat : Nat) : Int) < 0) := by omega
    simp only [Bool.false_eq_true, if_false, hne, hlt, decide_False]
    rw [Int.one_mul, Int.natAbs_ofNat]
    nth_rewrite 2 [he]
    exact round_scaled false m e _ hm hnum
  · have hne : ¬ ((-1 : Int) * ((m * 2 ^ (e - -149).toNat : Nat) : Int) = 0) := by omega
    have hlt : ((-1 : Int) * ((m * 2 ^ (e - -149).toNat : Nat) : Int) < 0) := by omega
    simp only [if_true, hne, hlt, decide_True, if_false]
    rw [Int.neg_mul, Int.one_mul, Int.natAbs_neg, Int.natAbs_ofNat]
    nth_rewrite 2 [he]
    exact round_scaled true m e _ hm hnum

theorem add_zero_left_pos (s t : Bool) (m : Nat) (e : Int) (hm : 0 < m)
    (hnum : IsNumber (.finite s m e)) :
    (Binary32.finite t 0 (-149)) + (Binary32.finite s m e) = .finite s m e := by
  show Binary32.add _ _ = _
  have hlo : -149 ≤ e := hnum.2.1
  have hg : min (-149) e = -149 := min_eq_left hlo
  have hpos : 0 < m * 2 ^ (e - -149).toNat := Nat.mul_pos hm (Nat.two_pow_pos _)
  have hposz : (0 : Int) < ((m * 2 ^ (e - -149).toNat : Nat) : Int) := by exact_mod_cast hpos
  have he : (-149 : Int) = e - ((e - -149).toNat : Nat) := by omega
  simp only [Binary32.add, hg, Nat.zero_mul, Nat.cast_zero, Int.mul_zero, Int.zero_add]
  cases s
  · have hne : ¬ ((1 : Int) * ((m * 2 ^ (e - -149).toNat : Nat) : Int) = 0) := by omega
    have hlt : ¬ ((1 : Int) * ((m * 2 ^ (e - -149).toNat : Nat) : Int) < 0) := by omega
    simp only [Bool.false_eq_true, if_false, hne, hlt, decide_False]
    rw [Int.one_mul, Int.natAbs_ofNat]
    nth_rewrite 2 [he]
    exact round_scaled false m e _ hm hnum
  · have hne : ¬ ((-1 : Int) * ((m * 2 ^ (e - -149).toNat : Nat) : Int) = 0) := by omega
    have hlt : ((-1 : Int) * ((m * 2 ^ (e - -149).toNat : Nat) : Int) < 0) := by omega
    simp only [if_true, hne, hlt, decide_True, if_false]
    rw [Int.neg_mul, Int.one_mul, Int.natAbs_neg, Int.natAbs_ofNat]
    nth_rewrite 2 [he]
    exact round_scaled true m e _ hm hnum

theorem one_mul_number (x : Binary32) (hx : IsNumber x) : (1 : Binary32) * x = x := by
  cases x with
  | nan => exact hx.elim
  | inf s => exact hx.elim
  | finite s m e =>
    show Binary32.mul (.finite false (2 ^ 23) (-23)) (.finite s m e) = _
    simp only [Binary32.mul, Bool.false_xor]
    by_cases hm : m = 0
    · subst hm
      have he : e = -149 := by
        rcases hx.2.2.2 with h | h
        · exact absurd h (by decide)
        · exact h
      subst he
      simp [round]
    · have h1 : 2 ^ 23 * m = m * 2 ^ 23 := Nat.mul_comm _ _
      have h2 : (-23 : Int) + e = e - ((23 : Nat) : Int) := by omega
      rw [h1, h2]
      exact round_scaled s m e 23 (Nat.pos_of_ne_zero hm) hx

theorem zero_mul_finite (s : Bool) (m : Nat) (e : Int) :
    (0 : Binary32) * (.finite s m e) = .finite s 0 (-149) := by
  show Binary32.mul (.finite false 0 (-149)) (.finite s m e) = _
  simp [Binary32.mul, round]

/-- Adding a zero to a number gives the number back, up to the sign of zero. -/
theorem add_zero_right (x : Binary32) (hx : IsNumber x) (t : Bool) :
    IsNumber (x + .finite t 0 (-149)) ∧ Same (x + .finite t 0 (-149)) x := by
  cases x with
  | nan => exact hx.elim
  | inf s => exact hx.elim
  | finite s m e =>
    by_cases hm : m = 0
    · subst hm
      rw [add_zeros]
      exact ⟨by simp [IsNumber], Or.inr ⟨rfl, rfl⟩⟩
    · rw [add_zero_right_pos s t m e (Nat.pos_of_ne_zero hm) hx]
      exact ⟨hx, Or.inl rfl⟩

/-- Adding a number to a zero gives the number back, up to the sign of zero. -/
theorem zero_add_left (x : Binary32) (hx : IsNumber x) (t : Bool) :
    IsNumber (.finite t 0 (-149) + x) ∧ Same (.finite t 0 (-149) + x) x := by
  cases x with
  | nan => exact hx.elim
  | inf s => exact hx.elim
  | finite s m e =>
    by_cases hm : m = 0
    · subst hm
      rw [add_zeros]
      exact ⟨by simp [IsNumber], Or.inr ⟨rfl, rfl⟩⟩
    · rw [add_zero_left_pos s t m e (Nat.pos_of_ne_zero hm) hx]
      exact ⟨hx, Or.inl rfl⟩

/-- The last column that `glm::translate(glm::mat4(1.0f), v)` computes, for
finite `v`: `(v.x, v.y, v.z, 1)` up to the sign of zero. -/
theorem translation_column (x y z : Binary32) (hx : IsNumber x) (hy : IsNumber y)
    (hz : IsNumber z) :
    Same (1 * x + 0 * y + 0 * z + 0) x ∧ Same (0 * x + 1 * y + 0 * z + 0) y ∧
      Same (0 * x + 0 * y + 1 * z + 0) z ∧ 0 * x + 0 * y + 0 * z + 1 = (1 : Binary32) := by
  have h0 : (0 : Binary32) = .finite false 0 (-149) := rfl
  have h1 : (1 : Binary32) = .finite false (2 ^ 23) (-23) := rfl
  have hzx : ∃ t, (0 : Binary32) * x = .finite t 0 (-149) := by
    cases x with
    | nan => exact hx.elim
    | inf s => exact hx.elim
    | finite s m e => exact ⟨s, zero_mul_finite s m e⟩
  have hzy : ∃ t, (0 : Binary32) * y = .finite t 0 (-149) := by
    cases y with
    | nan => exact hy.elim
    | inf s => exact hy.elim
    | finite s m e => exact ⟨s, zero_mul_finite s m e⟩
  have hzz : ∃ t, (0 : Binary32) * z = .finite t 0 (-149) := by
    cases z with
    | nan => exact hz.elim
    | inf s => exact hz.elim
    | finite s m e => exact ⟨s, zero_mul_finite s m e⟩
  obtain ⟨tx, hzx⟩ := hzx
  obtain ⟨ty, hzy⟩ := hzy
  obtain ⟨tz, hzz⟩ := hzz
  rw [hzx, hzy, hzz, one_mul_number x hx, one_mul_number y hy, one_mul_number z hz]
  refine ⟨?_, ?_, ?_, ?_⟩
  · have a1 := add_zero_right x hx ty
    have a2 := add_zero_right _ a1.1 tz
    have a3 := add_zero_right _ a2.1 false
    exact a3.2.trans (a2.2.trans a1.2)
  · have a1 := zero_add_left y hy tx
    have a2 := add_zero_right _ a1.1 tz
    have a3 := add_zero_right _ a2.1 false
    exact a3.2.trans (a2.2.trans a1.2)
  · rw [add_zeros]
    have a1 := zero_add_left z hz (tx && ty)
    have a3 := add_zero_right _ a1.1 false
    exact a3.2.trans a1.2
  · rw [add_zeros, add_zeros, h1]
    exact add_zero_left_pos false _ (2 ^ 23) (-23) (by decide) (by decide)

end Binary32

/-! ## Lemmas on successive updates -/

theorem update_spec {F : Type} [Zero F] [One F] [Add F] [Mul F] (L : HostLayout F)
    (self : Projectile F) (deltatime : F) (device : VulkanDevice) (b : Handle)
    (obj : BufferObject) (hmap : self.ubo.mapped = some b) (hbuf : device.buffers b = some obj)
    (hsize : L.sizeofMatrices ≤ obj.data.length) :
    ∃ (p : Projectile F) (d : VulkanDevice) (o : BufferObject),
      Projectile.update L self deltatime device = some (p, d) ∧
      p.position = self.position + self.direction * self.speed * deltatime ∧
      p.direction = self.direction ∧ p.speed = self.speed ∧ p.ubo.mapped = some b ∧
      d.buffers b = some o ∧ L.sizeofMatrices ≤ o.data.length := by
  refine ⟨_, _,
    { obj with
      data :=
        L.matricesBytes
            ⟨translate (mat4.diag 1) (self.position + self.direction * self.speed * deltatime)⟩ ++
          obj.data.drop L.sizeofMatrices },
    update_eq L self deltatime device b obj hmap hbuf hsize, rfl, rfl, rfl, hmap, by simp, ?_⟩
  simp only [List.length_append, L.matricesBytes_length, List.length_drop]
  omega

theorem updates_spec {F : Type} [Zero F] [One F] [Add F] [Mul F] (L : HostLayout F)
    (b : Handle) :
    ∀ (dts : List F) (self : Projectile F) (device : VulkanDevice) (obj : BufferObject),
      self.ubo.mapped = some b → device.buffers b = some obj →
      L.sizeofMatrices ≤ obj.data.length →
      ∃ (p : Projectile F) (d : VulkanDevice), Projectile.updates L self dts device = some (p, d) ∧
        p.position =
          dts.foldl (fun (pos : vec3 F) (dt : F) => pos + self.direction * self.speed * dt)
            self.position ∧
        p.direction = self.direction ∧ p.speed = self.speed := by
  intro dts
  induction dts with
  | nil =>
    intro self device obj _ _ _
    exact ⟨self, device, rfl, rfl, rfl, rfl⟩
  | cons dt rest ih =>
    intro self device obj hmap hbuf hsize
    obtain ⟨p1, d1, o1, hu, hpos1, hdir1, hspeed1, hmap1, hbuf1, hsize1⟩ :=
      update_spec L self dt device b obj hmap hbuf hsize
    obtain ⟨p, d, hp, hpos, hdir, hspeed⟩ := ih p1 d1 o1 hmap1 hbuf1 hsize1
    refine ⟨p, d, ?_, ?_, hdir.trans hdir1, hspeed.trans hspeed1⟩
    · simp only [Projectile.updates, hu]
      exact hp
    · rw [hpos, hpos1, hdir1, hspeed1, List.foldl_cons]

/-- In exact arithmetic the steps of successive updates add up to one step over
the summed time. -/
theorem foldl_step_sum {F : Type} [CommSemiring F] (direction speed : vec3 F) :
    ∀ (dts : List F) (position : vec3 F),
      dts.foldl (fun (pos : vec3 F) (dt : F) => pos + direction * speed * dt) position =
        position + direction * speed * dts.sum := by
  intro dts
  induction dts with
  | nil =>
    intro position
    simp [vec3_add_def, vec3_mul_def, vec3_hmul_def]
  | cons dt rest ih =>
    intro position
    rw [List.foldl_cons, ih, List.sum_cons, position_step_add]

/-! ## Claims on `Projectile::update` -/

/-- C3 (counterexample): the entity `Projectile(model, (0, 0, 0), (0, 1, 0))`
after `allocateResources`, with the finite `dt = 2^127`. `speed * dt`
overflows, the new position is `(0, +inf, 0)`, and the matrix that `update`
stores and copies into the mapped uniform buffer has the last column
`(NaN, +inf, NaN, NaN)`, since `0 * inf` is NaN: it is not the translation by the
new position, whose last column is `(0, +inf, 0, 1)`. -/
theorem update_overflow_counterexample :
    (Binary32.IsNumber (Binary32.lit 1 127) ∧ Binary32.IsNumber (Binary32.lit 15 (-1))) ∧
    ((launch ⟨0, 0, 0⟩ ⟨0, 1, 0⟩).bind
        (fun r => Projectile.update floatLayout r.1 (Binary32.lit 1 127) r.2)).map
      (fun r => (r.1.position, r.1.uniformData.model,
        (r.2.buffers 100).map (fun o => o.data.drop 48))) =
      some (⟨0, .inf false, 0⟩,
        ⟨⟨1, 0, 0, 0⟩, ⟨0, 1, 0, 0⟩, ⟨0, 0, 1, 0⟩, ⟨.nan, .inf false, .nan, .nan⟩⟩,
        some [0, 0, 0xC0, 0x7F, 0, 0, 0x80, 0x7F, 0, 0, 0xC0, 0x7F, 0, 0, 0xC0, 0x7F]) ∧
    (⟨.nan, .inf false, .nan, .nan⟩ : vec4 Binary32) ≠ ⟨0, .inf false, 0, 1⟩ := by
  decide

/-- C3 (amended): for every entity whose uniform buffer is mapped (whatever its
dirty flag was) and every `dt`, `update(dt)` returns with the position advanced
component-wise by `direction * speed * dt`; the model matrix has the identity
in its first three columns and the last column
`(1*x + 0*y + 0*z + 0, 0*x + 1*y + 0*z + 0, 0*x + 0*y + 1*z + 0, 0*x + 0*y + 0*z + 1)`
of the new position `(x, y, z)`; that matrix is copied to the start of the
mapped uniform buffer; and `updated = false`. This covers the first call after
`allocateResources`, on any entity. In `float` arithmetic, when the new
position is finite the matrix is the translation by it: the last column is
`(x, y, z, 1)` up to the sign of a zero. -/
theorem update_moves_and_syncs {F : Type} [Zero F] [One F] [Add F] [Mul F] (L : HostLayout F)
    (self : Projectile F) (deltatime : F) (device : VulkanDevice) (b : Handle)
    (obj : BufferObject) (hmap : self.ubo.mapped = some b) (hbuf : device.buffers b = some obj)
    (hsize : L.sizeofMatrices ≤ obj.data.length) :
    (∃ p d, Projectile.update L self deltatime device = some (p, d) ∧
      (p.position.x = self.position.x + self.direction.x * self.speed.x * deltatime ∧
        p.position.y = self.position.y + self.direction.y * self.speed.y * deltatime ∧
        p.position.z = self.position.z + self.direction.z * self.speed.z * deltatime) ∧
      p.uniformData.model =
        ⟨⟨1, 0, 0, 0⟩, ⟨0, 1, 0, 0⟩, ⟨0, 0, 1, 0⟩,
          ⟨1 * p.position.x + 0 * p.position.y + 0 * p.position.z + 0,
            0 * p.position.x + 1 * p.position.y + 0 * p.position.z + 0,
            0 * p.position.x + 0 * p.position.y + 1 * p.position.z + 0,
            0 * p.position.x + 0 * p.position.y + 0 * p.position.z + 1⟩⟩ ∧
      (d.buffers b).map (fun o => o.data.take L.sizeofMatrices) =
        some (L.matricesBytes p.uniformData) ∧
      p.updated = false) ∧
    (∀ (fresh : Projectile F) (device0 : VulkanDevice) (descriptorPool : Handle) (dt : F),
      ∃ p1 d1 p d, Projectile.allocateResources L fresh device0 descriptorPool = .ok (p1, d1) ∧
        Projectile.update L p1 dt d1 = some (p, d) ∧
        (p.position.x = fresh.position.x + fresh.direction.x * fresh.speed.x * dt ∧
          p.position.y = fresh.position.y + fresh.direction.y * fresh.speed.y * dt ∧
          p.position.z = fresh.position.z + fresh.direction.z * fresh.speed.z * dt) ∧
        p.uniformData.model =
          ⟨⟨1, 0, 0, 0⟩, ⟨0, 1, 0, 0⟩, ⟨0, 0, 1, 0⟩,
            ⟨1 * p.position.x + 0 * p.position.y + 0 * p.position.z + 0,
              0 * p.position.x + 1 * p.position.y + 0 * p.position.z + 0,
              0 * p.position.x + 0 * p.position.y + 1 * p.position.z + 0,
              0 * p.position.x + 0 * p.position.y + 0 * p.position.z + 1⟩⟩ ∧
        (d.buffers p1.ubo.buffer).map (fun o => o.data) = some (L.matricesBytes p.uniformData) ∧
        p.updated = false) ∧
    (∀ (K : HostLayout Binary32) (entity : Projectile Binary32) (dt : Binary32)
      (dev : VulkanDevice) (h : Handle) (o : BufferObject),
      entity.ubo.mapped = some h → dev.buffers h = some o → K.sizeofMatrices ≤ o.data.length →
      ∃ p d, Projectile.update K entity dt dev = some (p, d) ∧
        (Binary32.IsNumber p.position.x → Binary32.IsNumber p.position.y →
          Binary32.IsNumber p.position.z →
          p.uniformData.model.c0 = ⟨1, 0, 0, 0⟩ ∧ p.uniformData.model.c1 = ⟨0, 1, 0, 0⟩ ∧
          p.uniformData.model.c2 = ⟨0, 0, 1, 0⟩ ∧
          Binary32.Same p.uniformData.model.c3.x p.position.x ∧
          Binary32.Same p.uniformData.model.c3.y p.position.y ∧
          Binary32.Same p.uniformData.model.c3.z p.position.z ∧
          p.uniformData.model.c3.w = 1)) := by
  refine ⟨?_, ?_, ?_⟩
  · refine ⟨_, _, update_eq L self deltatime device b obj hmap hbuf hsize, ⟨rfl, rfl, rfl⟩, rfl,
      ?_, rfl⟩
    simp [L.matricesBytes_length]
  · intro fresh device0 descriptorPool dt
    refine ⟨_, _, _, _, allocateResources_eq L fresh device0 descriptorPool,
      update_eq L _ dt _ device0.nextHandle
        { usage := VK_BUFFER_USAGE_UNIFORM_BUFFER_BIT,
          memoryProperties :=
            VK_MEMORY_PROPERTY_HOST_VISIBLE_BIT ||| VK_MEMORY_PROPERTY_HOST_COHERENT_BIT,
          size := L.sizeofMatrices, memory := device0.nextHandle + 1,
          data := L.matricesBytes fresh.uniformData }
        rfl (by simp) (by simp [L.matricesBytes_length]),
      ⟨rfl, rfl, rfl⟩, rfl, ?_, rfl⟩
    simp [L.matricesBytes_length]
  · intro K entity dt dev h o hm hb hs
    refine ⟨_, _, update_eq K entity dt dev h o hm hb hs, ?_⟩
    intro hx hy hz
    obtain ⟨c1, c2, c3, c4⟩ := Binary32.translation_column _ _ _ hx hy hz
    exact ⟨rfl, rfl, rfl, c1, c2, c3, c4⟩

theorem update_moves_and_syncs_witness :
    (allocated.1.ubo.mapped = some 100 ∧ allocated.2.buffers 100 = some allocatedUbo ∧
      intLayout.sizeofMatrices ≤ allocatedUbo.data.length) ∧
    ∃ p d, Projectile.update intLayout allocated.1 2 allocated.2 = some (p, d) ∧
      (p.position.x = allocated.1.position.x + allocated.1.direction.x * allocated.1.speed.x * 2 ∧
        p.position.y =
          allocated.1.position.y + allocated.1.direction.y * allocated.1.speed.y * 2 ∧
        p.position.z =
          allocated.1.position.z + allocated.1.direction.z * allocated.1.speed.z * 2) ∧
      p.uniformData.model =
        ⟨⟨1, 0, 0, 0⟩, ⟨0, 1, 0, 0⟩, ⟨0, 0, 1, 0⟩,
          ⟨1 * p.position.x + 0 * p.position.y + 0 * p.position.z + 0,
            0 * p.position.x + 1 * p.position.y + 0 * p.position.z + 0,
            0 * p.position.x + 0 * p.position.y + 1 * p.position.z + 0,
            0 * p.position.x + 0 * p.position.y + 0 * p.position.z + 1⟩⟩ ∧
      (d.buffers 100).map (fun o => o.data.take intLayout.sizeofMatrices) =
        some (intLayout.matricesBytes p.uniformData) ∧
      p.updated = false :=
  ⟨⟨by decide, by decide, by decide⟩,
    (update_moves_and_syncs intLayout allocated.1 2 allocated.2 100 allocatedUbo (by decide)
      (by decide) (by decide)).1⟩

/-- C4 (counterexample): the entity `Projectile(model, (0, 2^24, 0), (0, 1, 0))`
after `allocateResources`, speed 7.5. Two calls `update(0.125)` leave
`position.y` at `16777216` (each step of `0.9375` is rounded away), one call
`update(0.25)` over the same total time moves it to `16777218`; direction and
speed are the same constants in both runs. -/
theorem update_split_steps_counterexample :
    (Binary32.lit 1 (-3) + Binary32.lit 1 (-3) = Binary32.lit 1 (-2)) ∧
    ((launch ⟨0, Binary32.lit 1 24, 0⟩ ⟨0, 1, 0⟩).bind
        (fun r => Projectile.updates floatLayout r.1 [Binary32.lit 1 (-3), Binary32.lit 1 (-3)]
          r.2)).map
      (fun r => (r.1.position, r.1.direction, r.1.speed)) =
      some (⟨0, Binary32.lit 1 24, 0⟩, ⟨0, 1, 0⟩,
        ⟨Binary32.lit 15 (-1), Binary32.lit 15 (-1), Binary32.lit 15 (-1)⟩) ∧
    ((launch ⟨0, Binary32.lit 1 24, 0⟩ ⟨0, 1, 0⟩).bind
        (fun r => Projectile.update floatLayout r.1 (Binary32.lit 1 (-2)) r.2)).map
      (fun r => (r.1.position, r.1.direction, r.1.speed)) =
      some (⟨0, Binary32.lit 16777218 0, 0⟩, ⟨0, 1, 0⟩,
        ⟨Binary32.lit 15 (-1), Binary32.lit 15 (-1), Binary32.lit 15 (-1)⟩) ∧
    Binary32.lit 1 24 ≠ Binary32.lit 16777218 0 := by
  decide

/-- C4 (amended): on an entity whose uniform buffer is mapped, the calls
`update(dt_1), ..., update(dt_n)` all return, leave direction and speed
unchanged, and end at the position
`p_0 + direction * speed * dt_1 + ... + direction * speed * dt_n`, summed from
the left in the arithmetic of the scalar type. When that arithmetic is exact (a
commutative semiring, so that no operation rounds) this is, for every order of
the `dt_i`, the position after the single call `update(T)` with `T` their
sum. -/
theorem updates_match_single_update {F : Type} [CommSemiring F] (L : HostLayout F)
    (self : Projectile F) (device : VulkanDevice) (b : Handle) (obj : BufferObject)
    (dts order : List F) (hmap : self.ubo.mapped = some b)
    (hbuf : device.buffers b = some obj) (hsize : L.sizeofMatrices ≤ obj.data.length)
    (horder : order.Perm dts) :
    (∃ p d q e, Projectile.updates L self order device = some (p, d) ∧
      Projectile.update L self dts.sum device = some (q, e) ∧
      p.position = q.position ∧ p.direction = self.direction ∧ p.speed = self.speed ∧
      q.direction = self.direction ∧ q.speed = self.speed) ∧
    (∀ (G : Type) [Zero G] [One G] [Add G] [Mul G] (K : HostLayout G) (entity : Projectile G)
      (dev : VulkanDevice) (h : Handle) (o : BufferObject) (steps : List G),
      entity.ubo.mapped = some h → dev.buffers h = some o → K.sizeofMatrices ≤ o.data.length →
      ∃ p d, Projectile.updates K entity steps dev = some (p, d) ∧
        p.position =
          steps.foldl (fun (pos : vec3 G) (dt : G) => pos + entity.direction * entity.speed * dt)
            entity.position ∧
        p.direction = entity.direction ∧ p.speed = entity.speed) := by
  refine ⟨?_, ?_⟩
  · obtain ⟨p, d, hp, hpos, hdir, hspeed⟩ := updates_spec L b order self device obj hmap hbuf hsize
    obtain ⟨q, e, -, hq, hqpos, hqdir, hqspeed, -, -, -⟩ :=
      update_spec L self dts.sum device b obj hmap hbuf hsize
    refine ⟨p, d, q, e, hp, hq, ?_, hdir, hspeed, hqdir, hqspeed⟩
    rw [hpos, hqpos, foldl_step_sum, horder.sum_eq]
  · intro G _ _ _ _ K entity dev h o steps hm hb hs
    exact updates_spec K h steps entity dev o hm hb hs

theorem updates_match_single_update_witness :
    (allocated.1.ubo.mapped = some 100 ∧ allocated.2.buffers 100 = some allocatedUbo ∧
      intLayout.sizeofMatrices ≤ allocatedUbo.data.length ∧ [3, 1, 2].Perm [1, 2, 3]) ∧
    ∃ p d q e, Projectile.updates intLayout allocated.1 [3, 1, 2] allocated.2 = some (p, d) ∧
      Projectile.update intLayout allocated.1 ([1, 2, 3] : List Int).sum allocated.2 =
        some (q, e) ∧
      p.position = q.position ∧ p.direction = allocated.1.direction ∧
      p.speed = allocated.1.speed ∧ q.direction = allocated.1.direction ∧
      q.speed = allocated.1.speed :=
  ⟨⟨by decide, by decide, by decide, by decide⟩,
    (updates_match_single_update intLayout allocated.1 allocated.2 100 allocatedUbo [1, 2, 3]
      [3, 1, 2] (by decide) (by decide) (by decide) (by decide)).1⟩

end VulkanInvaders
